import Mathlib

/-!
# Artify order-orchestration core: shallow embedding and verification

This file embeds the job-orchestration core of the Artify service
(`src/main.py`, `src/clients/openai_stylize_client.py`,
`src/clients/replicate_client.py`) into Lean and proves the frozen claims
about it.

Modelling conventions:
* Database text columns holding JSON are represented by small inductives that
  record exactly the distinctions the Python code draws with its
  `if field:` truthiness guards, `json.loads` try/except and
  `isinstance(_, list)` checks.
* External effects (provider HTTP calls, `get_prediction` describe calls,
  result-image fetch/store, the advisory lock) are oracles supplied in an
  `Env`; each call site consumes the next oracle value, indexed by a
  per-oracle call counter that starts at 0 for each run.
* Every `db.commit()` site of `_run_style_transfer_sync` emits a
  `commit` event carrying the full in-memory order record: SQLAlchemy's
  commit flushes all dirty attributes of the one loaded order row in a
  single transaction, so a commit is an atomic multi-field write.
* `time.sleep`, log warnings and the two e-mails are recorded as events.
-/

namespace Artify

/-!
Character-list helpers.  The corresponding `String` library functions are
implemented by well-founded recursion and do not reduce inside the kernel,
so the model uses these structurally recursive equivalents.
-/

def listIsPrefix : List Char → List Char → Bool
  | [], _ => true
  | _ :: _, [] => false
  | a :: as, b :: bs => a = b && listIsPrefix as bs

def listInfix (pat : List Char) : List Char → Bool
  | [] => pat.isEmpty
  | c :: cs => listIsPrefix pat (c :: cs) || listInfix pat cs

/-- Python `pat in hay` substring test. -/
def containsStr (hay pat : String) : Bool :=
  listInfix pat.toList hay.toList

/-- Python `s.startswith(pre)`. -/
def strStartsWith (s pre : String) : Bool :=
  listIsPrefix pre.toList s.toList

/-- Python `s[:n]`. -/
def strTake (n : Nat) (s : String) : String :=
  String.mk (s.toList.take n)

/-- Python `s.strip()` (over the common ASCII whitespace). -/
def pyStrip (s : String) : String :=
  let ws : Char → Bool := fun c => c = ' ' || c = '\t' || c = '\n' || c = '\r'
  String.mk (((s.toList.dropWhile ws).reverse.dropWhile ws).reverse)

/-- Python `s.split(sep)` for a one-character separator (empty segments
kept). -/
def splitChar (sep : Char) : List Char → List (List Char)
  | [] => [[]]
  | c :: cs =>
    match splitChar sep cs with
    | [] => [[]]
    | r :: rs => if c = sep then [] :: r :: rs else (c :: r) :: rs

-- Status strings from `database.OrderStatus` (src/database.py 18-24).
namespace St
def pending : String := "pending"
def paid : String := "paid"
def processing : String := "processing"
def completed : String := "completed"
def failed : String := "failed"
def cancelled : String := "cancelled"
end St

/-- Parsed view of the `result_urls` text column.  The code reads it with a
truthiness guard (`if order.result_urls:`), `json.loads` in a try/except and
an `isinstance(_, list)` check (main.py 1644-1671); the constructors record
exactly those distinctions. -/
inductive JsonField
  | null                    -- column NULL or empty string (falsy)
  | invalid (raw : String)  -- non-empty text on which json.loads raises
  | list (xs : List String) -- parses to a JSON array of strings
  | notList (raw : String)  -- parses to a non-array JSON value
  deriving DecidableEq, Repr

/-- Parsed view of the `style_image_urls` column (main.py 1620-1625).  The
code parses it without an `isinstance` check; a parse to a non-list value is
outside the model (no claim involves it), so the field carries the parsed
list when one is present. -/
inductive StyleField
  | null
  | invalid (raw : String)
  | list (xs : List String)
  deriving DecidableEq, Repr

/-- Dictionary returned by a provider's `get_prediction` (describe) call,
restricted to the keys `_run_style_transfer_sync` copies out
(main.py 1754-1770).  String-valued abstractions of nested values
(`metrics`, `urls`) lose nothing the core reads back. -/
structure PredInfo where
  id : Option String := none
  status : Option String := none
  error : Option String := none
  metrics : Option String := none
  created_at : Option String := none
  started_at : Option String := none
  completed_at : Option String := none
  model : Option String := none
  version : Option String := none
  source : Option String := none
  data_removed : Option Bool := none
  urls : Option String := none
  logs : Option String := none
  deriving DecidableEq, Repr

/-- One element of the persisted `replicate_prediction_details` list: the
dict built at main.py 1755-1770 (or the minimal fallback dict of 1772). -/
structure PredRecord where
  id : Option String := none
  status : Option String := none
  error : Option String := none
  metrics : Option String := none
  created_at : Option String := none
  started_at : Option String := none
  completed_at : Option String := none
  result_url : Option String := none
  model : Option String := none
  version : Option String := none
  source : Option String := none
  data_removed : Option Bool := none
  urls : Option String := none
  logs : Option String := none
  deriving DecidableEq, Repr

/-- main.py 1755-1770: record built from a successful describe call.
`logs` models `(pred.get("logs") or "")[:500] if pred.get("logs") else None`:
a falsy (absent or empty) logs value yields `None`. -/
def mkPredRecord (pred : PredInfo) (result_url : Option String) : PredRecord :=
  { id := pred.id, status := pred.status, error := pred.error,
    metrics := pred.metrics, created_at := pred.created_at,
    started_at := pred.started_at, completed_at := pred.completed_at,
    result_url := result_url, model := pred.model, version := pred.version,
    source := pred.source, data_removed := pred.data_removed,
    urls := pred.urls,
    logs := match pred.logs with
      | some s => if s = "" then none else some (strTake 500 s)
      | none => none }

/-- main.py 1772: minimal record when the describe call raises. -/
def minimalPredRecord (jobId : String) (result_url : Option String) : PredRecord :=
  { id := some jobId, status := some "succeeded", result_url := result_url }

/-- Parsed view of the `replicate_prediction_details` column
(main.py 1648-1649 and 1661). -/
inductive DetailsField
  | null
  | invalid (raw : String)
  | list (xs : List PredRecord)
  | notList (raw : String)
  deriving DecidableEq, Repr

/-- The order row fields `_run_style_transfer_sync` reads or writes. -/
structure OrderRec where
  status : String
  style_image_urls : StyleField
  style_image_url : Option String
  result_urls : JsonField
  style_transfer_job_id : Option String
  replicate_prediction_details : DetailsField
  style_transfer_error : Option String
  completed_at : Option Nat
  failed_at : Option Nat
  image_url : String
  email : String
  deriving DecidableEq, Repr

/-- A value held in the in-memory `result_urls_list`: resumed entries and
Replicate results are URL strings; the OpenAI client returns a
`{"content": bytes, "content_type": str}` dict (style_transfer.py 35). -/
inductive ResVal
  | url (s : String)
  | content (contentType : String)
  deriving DecidableEq, Repr

/-- main.py 1775: `x if isinstance(x, str) else "openai://pending"`. -/
def serializeItem : ResVal → String
  | .url s => s
  | .content _ => "openai://pending"

/-- Exception kinds of the `StyleTransferError` family
(replicate_client.py 13-20): `StyleTransferRateLimit` and
`StyleTransferTimeout` are subclasses of `StyleTransferError`. -/
inductive ExcKind
  | rateLimit
  | timeout
  | error
  deriving DecidableEq, Repr

/-- A raised `StyleTransferError`-family exception; `cause` models Python's
`raise e from cause` chaining (main.py 1748). -/
structure Exc where
  kind : ExcKind
  msg : String
  cause : Option (ExcKind × String) := none
  deriving DecidableEq, Repr

/-- Outcome of one `transfer_style_sync` provider invocation. -/
inductive CallResult
  | ok (result : ResVal) (jobId : String)
  | exc (e : Exc)
  deriving DecidableEq, Repr

def CallResult.isOk : CallResult → Bool
  | .ok _ _ => true
  | .exc _ => false

/-- Which service object made a call: `service` (the configured primary) or
`replicate_fallback` (main.py 1701). -/
inductive ProviderTag
  | primary
  | fallback
  deriving DecidableEq, Repr

/-- Identifies which `db.commit()` site of `_run_style_transfer_sync`
produced a persisted write. -/
inductive CommitKind
  | validationFailed   -- main.py 1633
  | earlyFinalize      -- main.py 1656
  | setProcessing      -- main.py 1675
  | checkpoint         -- main.py 1779
  | persistOverwrite   -- main.py 1784
  | finalize           -- main.py 1788
  | rateLimitFailed    -- main.py 1800
  | transientRetry     -- main.py 1808
  | terminalFailed     -- main.py 1813
  deriving DecidableEq, Repr

/-- Observable steps of one Executor run. -/
inductive Event
  | commit (kind : CommitKind) (snapshot : OrderRec)
  | providerCall (tag : ProviderTag) (sourceUrl styleUrl : String)
  | describeCall (tag : ProviderTag) (jobId : String)
  | sleep (seconds : Nat)
  | lockWarn
  | emailFailed (msg : String)
  | emailReady
  | releaseLock
  deriving DecidableEq, Repr

/-- Behaviour of `pg_try_advisory_lock` for this run
(main.py 1827-1838). -/
inductive LockOutcome
  | acquired    -- returned true
  | held        -- returned false: another worker owns the order
  | infraError  -- the statement raised
  deriving DecidableEq, Repr

/-- Per-item outcome inside `_persist_result_images` (main.py 68-111). -/
inductive FetchOutcome
  | stored     -- fetched (or decoded) and stored fine
  | fetchFail  -- the GET of a URL item returned a status >= 400
  | exnFail    -- the per-item try raised
  deriving DecidableEq, Repr

/-- Oracles and configuration for one Executor run.  Call-indexed functions
are consumed left to right, one index per call, starting at 0. -/
structure Env where
  primaryCalls : Nat → CallResult
  fallbackCalls : Nat → CallResult
  describeResults : Nat → Option PredInfo  -- none: get_prediction raised
  useOpenai : Bool          -- settings.style_transfer_provider == "openai"
  hasReplicateToken : Bool  -- replicate_api_token set (fallback configured)
  publicBaseUrl : Option String
  hasSourceImageRow : Bool  -- an OrderSourceImage row exists
  fetchOutcomes : Nat → FetchOutcome
  persistOuterFail : Bool   -- the outer try of _persist_result_images raised
  now : Nat                 -- datetime.utcnow(), abstracted

/-- main.py 58: `(get_settings().public_base_url or "").rstrip("/")`,
`none` when the result is falsy. -/
def effBase (env : Env) : Option String :=
  match env.publicBaseUrl with
  | none => none
  | some b =>
    let b' := String.mk ((b.toList.reverse.dropWhile (· = '/')).reverse)
    if b' = "" then none else some b'

/-- main.py 1620-1627: style url list with the single-url fallback. -/
def computeStyleUrls (o : OrderRec) : List String :=
  let s0 : List String :=
    match o.style_image_urls with
    | .list xs => xs
    | _ => []
  if s0.isEmpty then
    match o.style_image_url with
    | some u => if u = "" then [] else [u]
    | none => []
  else s0

/-- main.py 1647: `(order.style_transfer_job_id or "").split(",") if
order.style_transfer_job_id else []`. -/
def splitJobIds : Option String → List String
  | none => []
  | some s => if s = "" then [] else (splitChar ',' s.toList).map String.mk

/-- main.py 1660: `[x.strip() for x in job_ids if x.strip()]`. -/
def cleanIds (ids : List String) : List String :=
  (ids.map pyStrip).filter (· ≠ "")

/-- State recovered by the resume block. -/
structure ResumeData where
  results : List ResVal
  jobIds : List String
  details : List PredRecord
  skip : Nat
  deriving DecidableEq, Repr

/-- main.py 1637-1671, the resume block.  `none` means the early-finalize
path applies (persisted progress already covers every target ref).  Note the
code parses `replicate_prediction_details` (1648-1649) before the length
check (1650-1652), so an unparseable details column raises into the except
arm (1667-1671) and resets everything, `skip = 0` included. -/
def resumeFromProgress (o : OrderRec) (styleUrls : List String) : Option ResumeData :=
  match o.result_urls with
  | .null => some ⟨[], [], [], 0⟩          -- `if order.result_urls:` is false
  | .invalid _ => some ⟨[], [], [], 0⟩     -- json.loads raised
  | .notList _ => some ⟨[], [], [], 0⟩     -- parsed value fails isinstance(list)
  | .list xs =>
    match o.replicate_prediction_details with
    | .invalid _ => some ⟨[], [], [], 0⟩   -- details json.loads raised
    | d =>
      if styleUrls.length ≤ xs.length then
        none
      else
        let preds : List PredRecord := match d with | .list ps => ps | _ => []
        some ⟨xs.map .url,
              (cleanIds (splitJobIds o.style_transfer_job_id)).take xs.length,
              preds.take xs.length,
              xs.length⟩

/-- main.py 1677-1683: prefer the persisted source-image URL (served from
the `OrderSourceImage` row) when one exists and a public base URL is set. -/
def effectiveSourceUrl (env : Env) (orderId : String) (o : OrderRec) : String :=
  match env.hasSourceImageRow, effBase env with
  | true, some base => base ++ "/api/orders/" ++ orderId ++ "/source-image"
  | _, _ => o.image_url

/-- main.py 1728: the fallback exists iff the primary is OpenAI and a
Replicate token is configured (`get_replicate_service`, main.py 176-190). -/
def fallbackAvailable (env : Env) : Bool :=
  env.useOpenai && env.hasReplicateToken

/-- main.py 1709-1749, the final attempt of the per-unit loop
(`attempt == max_openai_attempts - 1`): on success return the primary
result; on failure make the single fallback call when one is configured,
re-raising its failure with the primary error as cause
(`raise fallback_err from e`); without a fallback re-raise the primary
error. -/
def attemptLast (env : Env) (src styleUrl : String) (pc fc : Nat) :
    Except Exc (ResVal × String × ProviderTag) × List Event × Nat × Nat :=
  let callEv := Event.providerCall .primary src styleUrl
  match env.primaryCalls pc with
  | .ok r j => (.ok (r, j, .primary), [callEv], pc + 1, fc)
  | .exc e =>
    if fallbackAvailable env then
      let fbEv := Event.providerCall .fallback src styleUrl
      match env.fallbackCalls fc with
      | .ok r j => (.ok (r, j, .fallback), [callEv, fbEv], pc + 1, fc + 1)
      | .exc f =>
        (.error { f with cause := some (e.kind, e.msg) }, [callEv, fbEv], pc + 1, fc + 1)
    else
      (.error e, [callEv], pc + 1, fc)

/-- main.py 1709-1749: the per-unit attempt loop with `remaining` attempts
left (the code fixes `max_openai_attempts = 3`).  A failed attempt that is
not the last sleeps 10 s and retries; the last attempt is `attemptLast`.
Returns the unit outcome, the emitted events and the advanced
primary/fallback call counters. -/
def attemptLoop (env : Env) (src styleUrl : String) :
    Nat → Nat → Nat → Except Exc (ResVal × String × ProviderTag) × List Event × Nat × Nat
  | 0, pc, fc => attemptLast env src styleUrl pc fc
  | 1, pc, fc => attemptLast env src styleUrl pc fc
  | n + 2, pc, fc =>
    let callEv := Event.providerCall .primary src styleUrl
    match env.primaryCalls pc with
    | .ok r j => (.ok (r, j, .primary), [callEv], pc + 1, fc)
    | .exc _ =>
      let (res, evs, pc', fc') := attemptLoop env src styleUrl (n + 1) (pc + 1) fc
      (res, callEv :: .sleep 10 :: evs, pc', fc')

/-- In-memory state threaded through the per-unit loop: the loaded order
object (whose dirty fields each `db.commit()` persists) and the three
parallel lists, plus the oracle call counters. -/
structure LoopState where
  mem : OrderRec
  results : List ResVal
  jobIds : List String
  details : List PredRecord
  pc : Nat
  fc : Nat
  dc : Nat
  deriving Repr

/-- main.py 1752: `result_url if isinstance(result_url, str) else None`. -/
def unitResultUrl : ResVal → Option String
  | .url s => some s
  | .content _ => none

/-- main.py 1753-1772: the best-effort diagnostic record for one unit. -/
def unitRecord (env : Env) (dc : Nat) (r : ResVal) (j : String) : PredRecord :=
  match env.describeResults dc with
  | some info => mkPredRecord info (unitResultUrl r)
  | none => minimalPredRecord j (unitResultUrl r)

/-- main.py 1750-1778: after a successful unit, append to the three parallel
lists and set the three serialized order fields that the following
`db.commit()` persists together. -/
def unitStep (env : Env) (st : LoopState) (r : ResVal) (j : String) (pc' fc' : Nat) : LoopState :=
  let results' := st.results ++ [r]
  let jobIds' := st.jobIds ++ [j]
  let details' := st.details ++ [unitRecord env st.dc r j]
  { mem := { st.mem with
      result_urls := .list (results'.map serializeItem)
      style_transfer_job_id := some (String.intercalate "," jobIds')
      replicate_prediction_details := .list details' }
    results := results'
    jobIds := jobIds'
    details := details'
    pc := pc'
    fc := fc'
    dc := st.dc + 1 }

/-- main.py 1702-1779: the per-unit loop over the remaining style refs.
Each unit: inter-unit pacing sleep (30 s, skipped for the first remaining
unit), the attempt loop, the best-effort describe call, then `unitStep` and
one checkpoint commit covering all three serialized fields.  A unit failure
aborts the loop, returning the state as of the last commit. -/
def unitsLoop (env : Env) (src : String) :
    Bool → List String → LoopState → (LoopState ⊕ (Exc × LoopState)) × List Event
  | _, [], st => (.inl st, [])
  | first, styleUrl :: rest, st =>
    let pacing : List Event := if first then [] else [.sleep 30]
    match attemptLoop env src styleUrl 3 st.pc st.fc with
    | (.error e, evs, _, _) => (.inr (e, st), pacing ++ evs)
    | (.ok (r, j, tag), evs, pc', fc') =>
      let st' := unitStep env st r j pc' fc'
      let (res, evs') := unitsLoop env src false rest st'
      (res, pacing ++ evs ++ [.describeCall tag j, .commit .checkpoint st'.mem] ++ evs')

/-- main.py 61 and 121: fallback serialization
`[str(x) if isinstance(x, str) else "" for x in result_items]`. -/
def persistFallbackStr : ResVal → String
  | .url s => s
  | .content _ => ""

/-- main.py 51-121, `_persist_result_images`: store each result durably and
return one permanent URL per input item, in order.  Items that cannot be
persisted keep their original URL (fetch failure), or degrade to `""`
(non-fetchable placeholder, or a per-item exception on a bytes item); with
no public base URL, or when the outer try raises, the input is returned
serialized unchanged.  Every branch appends exactly one entry, so the inner
`len(permanent) == len(result_items)` commit guard always passes. -/
def persistResultImages (baseUrl : Option String) (orderId : String)
    (outcomes : Nat → FetchOutcome) (outerFail : Bool)
    (items : List ResVal) : List String :=
  match baseUrl with
  | none => items.map persistFallbackStr
  | some base =>
    if outerFail then items.map persistFallbackStr
    else go base 1 items
where
  durable (base : String) (i : Nat) : String :=
    base ++ "/api/orders/" ++ orderId ++ "/result/" ++ toString i
  go (base : String) : Nat → List ResVal → List String
    | _, [] => []
    | i, item :: rest =>
      let entry : String :=
        match item with
        | .content _ =>
          match outcomes (i - 1) with
          | .exnFail => persistFallbackStr item
          | _ => durable base i
        | .url s =>
          if strStartsWith s "http://" || strStartsWith s "https://" then
            match outcomes (i - 1) with
            | .stored => durable base i
            | .fetchFail => s
            | .exnFail => persistFallbackStr item
          else
            ""   -- non-fetchable placeholder: skip persistence
      entry :: go base (i + 1) rest

/-- main.py 1804: transient upstream source-url failure test. -/
def isTransientSourceError (msg : String) : Bool :=
  (containsStr msg "504" && containsStr msg "Gateway Time-out")
    || containsStr msg "litter.catbox.moe"

/-- main.py 1615-1824, the body of `_run_style_transfer_sync` once the lock
is held: validation, resume, the per-unit loop, durable persistence,
finalization and the exception handlers.  Returns the final persisted order
record and the event trace.  The catch-all `except Exception` handler
(main.py 1815-1820) is unreachable in the model: the oracles raise only
`StyleTransferError`-family exceptions. -/
def runBody (env : Env) (orderId : String) (o : OrderRec) : OrderRec × List Event :=
  let S := computeStyleUrls o
  if S.isEmpty then
    -- main.py 1628-1635: validation failure
    let msg := "Style reference image missing"
    let mem : OrderRec :=
      { o with
        status := St.failed
        style_transfer_error := some msg
        failed_at := some env.now }
    (mem, [.commit .validationFailed mem, .emailFailed msg])
  else
    match resumeFromProgress o S with
    | none =>
      -- main.py 1652-1658: already fully produced
      if o.status ≠ St.completed then
        let mem : OrderRec :=
          { o with
            status := St.completed
            completed_at := some (o.completed_at.getD env.now) }
        (mem, [.commit .earlyFinalize mem])
      else (o, [])
    | some rd =>
      let mem0 : OrderRec := { o with status := St.processing }
      let src := effectiveSourceUrl env orderId o
      let st0 : LoopState := ⟨mem0, rd.results, rd.jobIds, rd.details, 0, 0, 0⟩
      match unitsLoop env src true (S.drop rd.skip) st0 with
      | (.inl st, evs) =>
        -- main.py 1781-1794: persist durably, overwrite, finalize, notify
        let persisted :=
          persistResultImages (effBase env) orderId env.fetchOutcomes
            env.persistOuterFail st.results
        let mem1 := { st.mem with result_urls := .list persisted }
        let mem2 := { mem1 with status := St.completed, completed_at := some env.now }
        (mem2, .commit .setProcessing mem0 :: evs
          ++ [.commit .persistOverwrite mem1, .commit .finalize mem2, .emailReady])
      | (.inr (e, st), evs) =>
        match e.kind with
        | .rateLimit =>
          -- main.py 1796-1800
          let mem :=
            { st.mem with
              status := St.failed
              style_transfer_error := some ("Rate limit: " ++ e.msg)
              failed_at := some env.now }
          (mem, .commit .setProcessing mem0 :: evs ++ [.commit .rateLimitFailed mem])
        | _ =>
          if isTransientSourceError e.msg then
            -- main.py 1804-1809: leave in processing for the supervisor
            let mem :=
              { st.mem with
                status := St.processing
                style_transfer_error := some e.msg }
            (mem, .commit .setProcessing mem0 :: evs ++ [.commit .transientRetry mem])
          else
            -- main.py 1810-1814
            let mem :=
              { st.mem with
                status := St.failed
                style_transfer_error := some e.msg
                failed_at := some env.now }
            (mem, .commit .setProcessing mem0 :: evs
              ++ [.commit .terminalFailed mem, .emailFailed e.msg])

/-- main.py 1827-1838, `_try_acquire_order_lock_sync`: true when the
advisory lock was taken; on an infrastructure error it logs a warning and
returns true (fail open, in-process guard only). -/
def tryAcquireOrderLockSync : LockOutcome → Bool × List Event
  | .acquired => (true, [])
  | .held => (false, [])
  | .infraError => (true, [.lockWarn])

/-- Result of one Executor run: the persisted order row and the trace. -/
structure RunOut where
  db : OrderRec
  trace : List Event
  deriving Repr

/-- main.py 1606-1824, `_run_style_transfer_sync`: acquire the lock (a false
`try_acquire` skips the run entirely), execute the body, and always release
the lock in the final step when `lock_acquired` was true. -/
def runStyleTransferSync (lock : LockOutcome) (env : Env) (orderId : String) (o : OrderRec) : RunOut :=
  match tryAcquireOrderLockSync lock with
  | (false, evs) => ⟨o, evs⟩
  | (true, evs) =>
    let (db, bodyEvs) := runBody env orderId o
    ⟨db, evs ++ bodyEvs ++ [.releaseLock]⟩

/-- The committed progress list of a persisted record (`[]` when the column
does not hold a JSON list). -/
def progressList (o : OrderRec) : List String :=
  match o.result_urls with
  | .list xs => xs
  | _ => []

/-- The style-url arguments of the provider calls in a trace, in order. -/
def callStyleUrls (evs : List Event) : List String :=
  evs.filterMap fun e =>
    match e with
    | .providerCall _ _ u => some u
    | _ => none

/-- The commit snapshots in a trace, with their commit sites. -/
def commits (evs : List Event) : List (CommitKind × OrderRec) :=
  evs.filterMap fun e =>
    match e with
    | .commit k snap => some (k, snap)
    | _ => none

/-!
## Provider clients

`OpenAIStylizeClient.stylize` (openai_stylize_client.py 50-153) and
`ReplicateClient.submit_style_transfer` (replicate_client.py 50-92), the two
retry/backoff loops the Retry/Backoff Policy claims talk about.  Wait times
are modelled in whole seconds (`baseWait` is the `rate_limit_base_wait`
tunable).
-/

/-- Client-level observable steps. -/
inductive CEvent
  | httpPost            -- the POST of one attempt
  | httpGet             -- the GET fetching a result URL
  | wait (seconds : Nat)
  deriving DecidableEq, Repr

/-- The retry tunables of a provider client. -/
structure ClientCfg where
  retries : Nat   -- rate_limit_retries (default 4)
  baseWait : Nat  -- rate_limit_base_wait (default 15)
  deriving DecidableEq, Repr

/-- Relevant shape of one OpenAI images/edits response body
(openai_stylize_client.py 113-137). -/
inductive OAIBody
  | b64Image                      -- data[0].b64_json present
  | urlImage (fetchStatus : Nat)  -- data[0].url present; status of the GET
  | emptyData (errMsg : String)   -- data missing or empty
  | noImage (descr : String)      -- data[0] has neither b64_json nor url
  deriving DecidableEq, Repr

/-- One attempt's HTTP outcome for the OpenAI client. -/
inductive OAIAttempt
  | resp (status : Nat) (text : String) (body : OAIBody)
  | netError (msg : String)       -- httpx.RequestError
  deriving DecidableEq, Repr

/-- openai_stylize_client.py 86-153: the attempt loop of `stylize`.
`remaining + attempt = cfg.retries` throughout; `attempt < retries - 1`
(a retry is allowed) iff `remaining ≥ 2`. -/
def stylizeLoop (cfg : ClientCfg) (responses : Nat → OAIAttempt) :
    Nat → Nat → Except Exc Unit × List CEvent
  | 0, _ =>
    -- fell off the for loop (line 153)
    (.error ⟨.rateLimit, "Rate limit exceeded", none⟩, [])
  | remaining + 1, attempt =>
    match responses attempt with
    | .netError m =>
      let wait := cfg.baseWait * 2 ^ attempt
      if remaining ≥ 1 then
        let (res, evs) := stylizeLoop cfg responses remaining (attempt + 1)
        (res, .httpPost :: .wait wait :: evs)
      else
        (.error ⟨.error, "OpenAI request failed after retries: " ++ m, none⟩, [.httpPost])
    | .resp status text body =>
      if ([429, 500, 502, 503, 504] : List Nat).contains status then
        let wait := cfg.baseWait * 2 ^ attempt
        if remaining ≥ 1 then
          let (res, evs) := stylizeLoop cfg responses remaining (attempt + 1)
          (res, .httpPost :: .wait wait :: evs)
        else if status = 429 then
          (.error ⟨.rateLimit, "Rate limit exceeded after retries", none⟩, [.httpPost])
        else
          (.error ⟨.error, "OpenAI image edit transient error " ++ toString status
            ++ " after retries: " ++ strTake 500 text, none⟩, [.httpPost])
      else if 400 ≤ status then
        (.error ⟨.error, "OpenAI image edit API error " ++ toString status ++ ": "
          ++ strTake 500 text, none⟩, [.httpPost])
      else
        match body with
        | .emptyData m =>
          (.error ⟨.error, "OpenAI image edit failed: " ++ m, none⟩, [.httpPost])
        | .b64Image => (.ok (), [.httpPost])
        | .urlImage fs =>
          if 400 ≤ fs then
            (.error ⟨.error, "Failed to fetch result image: " ++ toString fs, none⟩,
              [.httpPost, .httpGet])
          else (.ok (), [.httpPost, .httpGet])
        | .noImage d =>
          (.error ⟨.error, "Unexpected OpenAI response format: " ++ d, none⟩, [.httpPost])

/-- openai_stylize_client.py 50-153, `OpenAIStylizeClient.stylize` (the
successful image bytes are abstracted to `Unit`). -/
def stylize (cfg : ClientCfg) (imageUrl : String) (responses : Nat → OAIAttempt) :
    Except Exc Unit × List CEvent :=
  if !(strStartsWith imageUrl "https://") then
    (.error ⟨.error,
      "Image URL must be public HTTPS (set PUBLIC_BASE_URL on the server).", none⟩, [])
  else
    stylizeLoop cfg responses cfg.retries 0

/-- One attempt's HTTP outcome for the Replicate submit call. -/
inductive RepAttempt
  | resp (status : Nat) (text : String) (predictionId : Option String)
  deriving DecidableEq, Repr

/-- replicate_client.py 69-92: the attempt loop of `submit_style_transfer`
(the URL validation of lines 52-55 is upstream of this loop). -/
def submitStyleTransferLoop (cfg : ClientCfg) (responses : Nat → RepAttempt) :
    Nat → Nat → Except Exc String × List CEvent
  | 0, _ => (.error ⟨.rateLimit, "Rate limit exceeded", none⟩, [])
  | remaining + 1, attempt =>
    match responses attempt with
    | .resp status text predictionId =>
      if status = 429 then
        let wait := cfg.baseWait * 2 ^ attempt
        if remaining ≥ 1 then
          let (res, evs) := submitStyleTransferLoop cfg responses remaining (attempt + 1)
          (res, .httpPost :: .wait wait :: evs)
        else
          (.error ⟨.rateLimit, "Rate limit exceeded after retries", none⟩, [.httpPost])
      else if 400 ≤ status then
        (.error ⟨.error, "Replicate API error " ++ toString status ++ ": " ++ text, none⟩,
          [.httpPost])
      else
        match predictionId with
        | none => (.error ⟨.error, "No prediction ID returned", none⟩, [.httpPost])
        | some pid => (.ok pid, [.httpPost])

/-- The number of HTTP attempts a client-level event list records. -/
def httpPosts (evs : List CEvent) : Nat :=
  (evs.filter (· = .httpPost)).length

/-- The waits a client-level event list records, in order. -/
def waitsOf (evs : List CEvent) : List Nat :=
  evs.filterMap fun e =>
    match e with
    | .wait w => some w
    | _ => none

/-!
## Derived notions used in the claim statements
-/

/-- True when reading the `replicate_prediction_details` column does not
raise inside the resume block's try (main.py 1648-1649). -/
def detailsParseOk : DetailsField → Bool
  | .invalid _ => false
  | _ => true

/-- The result component of a successful call (junk on an exception). -/
def okRes : CallResult → ResVal
  | .ok r _ => r
  | .exc _ => .url ""

/-- The job id of a successful call (junk on an exception). -/
def okJob : CallResult → String
  | .ok _ j => j
  | .exc _ => ""

/-- The loaded order's parallel lists, as the resume block recovers them,
have full `skip` length (true of every state this code itself persists,
where the three fields are written together at each checkpoint). -/
def resumeAlignedB (o : OrderRec) : Bool :=
  match resumeFromProgress o (computeStyleUrls o) with
  | some rd => rd.jobIds.length == rd.skip && rd.details.length == rd.skip
  | none => true

/-!
## Basic lemmas
-/

theorem commits_append (a b : List Event) :
    commits (a ++ b) = commits a ++ commits b :=
  List.filterMap_append ..

theorem callStyleUrls_append (a b : List Event) :
    callStyleUrls (a ++ b) = callStyleUrls a ++ callStyleUrls b :=
  List.filterMap_append ..

theorem persistResultImages_go_length (orderId : String) (outcomes : Nat → FetchOutcome)
    (base : String) :
    ∀ (items : List ResVal) (i : Nat),
      (persistResultImages.go orderId outcomes base i items).length = items.length := by
  intro items
  induction items with
  | nil => intro i; rfl
  | cons x rest ih =>
    intro i
    simp only [persistResultImages.go, List.length_cons, ih]

/-- `_persist_result_images` returns exactly one permanent URL per input
item (every branch of main.py 68-111 appends one entry). -/
theorem persistResultImages_length (baseUrl : Option String) (orderId : String)
    (outcomes : Nat → FetchOutcome) (outerFail : Bool) (items : List ResVal) :
    (persistResultImages baseUrl orderId outcomes outerFail items).length = items.length := by
  cases baseUrl with
  | none => simp [persistResultImages]
  | some base =>
    by_cases h : outerFail <;>
      simp [persistResultImages, h, persistResultImages_go_length]

theorem attemptLast_commits (env : Env) (src u : String) (pc fc : Nat) :
    commits (attemptLast env src u pc fc).2.1 = [] := by
  unfold attemptLast
  cases hp : env.primaryCalls pc with
  | ok r j => simp [commits]
  | exc e =>
    by_cases hf : fallbackAvailable env = true
    · cases env.fallbackCalls fc <;> simp [hf, commits]
    · simp only [Bool.not_eq_true] at hf
      simp [hf, commits]

/-- The attempt loop never commits: its events are provider calls and
sleeps only. -/
theorem attemptLoop_commits (env : Env) (src u : String) :
    ∀ (n pc fc : Nat), commits (attemptLoop env src u n pc fc).2.1 = [] := by
  intro n
  induction n using Nat.strong_induction_on with
  | _ n ih =>
    intro pc fc
    match n with
    | 0 => exact attemptLast_commits env src u pc fc
    | 1 => exact attemptLast_commits env src u pc fc
    | m + 2 =>
      simp only [attemptLoop]
      cases hp : env.primaryCalls pc with
      | ok r j => simp [commits]
      | exc e =>
        rcases hrec : attemptLoop env src u (m + 1) (pc + 1) fc with ⟨res, evs, pc', fc'⟩
        have hevs : commits evs = [] := by
          have h := ih (m + 1) (by omega) (pc + 1) fc
          rw [hrec] at h; exact h
        simp only [commits] at hevs ⊢
        simp [hrec, hevs]

theorem attemptLast_head (env : Env) (src u : String) (pc fc : Nat) :
    ∃ rest, (attemptLast env src u pc fc).2.1 = .providerCall .primary src u :: rest := by
  unfold attemptLast
  cases hp : env.primaryCalls pc with
  | ok r j => exact ⟨[], rfl⟩
  | exc e =>
    by_cases hf : fallbackAvailable env = true
    · cases env.fallbackCalls fc <;> simp [hf]
    · simp only [Bool.not_eq_true] at hf; simp [hf]

/-- The attempt loop always opens with a call to the primary service: the
fallback is consulted for the current unit only, never carried over. -/
theorem attemptLoop_head (env : Env) (src u : String) (n pc fc : Nat) :
    ∃ rest, (attemptLoop env src u n pc fc).2.1 = .providerCall .primary src u :: rest := by
  match n with
  | 0 => exact attemptLast_head env src u pc fc
  | 1 => exact attemptLast_head env src u pc fc
  | m + 2 =>
    simp only [attemptLoop]
    cases hp : env.primaryCalls pc with
    | ok r j => exact ⟨[], rfl⟩
    | exc e =>
      rcases hrec : attemptLoop env src u (m + 1) (pc + 1) fc with ⟨res, evs, pc', fc'⟩
      simp [hrec]

theorem attemptLast_ok (env : Env) (src u : String) {pc : Nat} {r : ResVal} {j : String}
    (h : env.primaryCalls pc = .ok r j) (fc : Nat) :
    attemptLast env src u pc fc =
      (.ok (r, j, .primary), [.providerCall .primary src u], pc + 1, fc) := by
  unfold attemptLast
  rw [h]

/-- When the primary call for this unit succeeds, the attempt loop returns
it directly: one call, no sleep, no fallback. -/
theorem attemptLoop_ok (env : Env) (src u : String) {pc : Nat} {r : ResVal} {j : String}
    (h : env.primaryCalls pc = .ok r j) (n fc : Nat) :
    attemptLoop env src u n pc fc =
      (.ok (r, j, .primary), [.providerCall .primary src u], pc + 1, fc) := by
  match n with
  | 0 => exact attemptLast_ok env src u h fc
  | 1 => exact attemptLast_ok env src u h fc
  | m + 2 =>
    simp only [attemptLoop]
    rw [h]

/-- Facts about `unitStep` used throughout. -/
theorem unitStep_mem (env : Env) (st : LoopState) (r : ResVal) (j : String) (pc' fc' : Nat) :
    (unitStep env st r j pc' fc').mem.status = st.mem.status ∧
    (unitStep env st r j pc' fc').mem.style_image_urls = st.mem.style_image_urls ∧
    (unitStep env st r j pc' fc').mem.style_image_url = st.mem.style_image_url ∧
    (unitStep env st r j pc' fc').mem.result_urls =
      .list ((st.results ++ [r]).map serializeItem) ∧
    (unitStep env st r j pc' fc').results = st.results ++ [r] := by
  simp [unitStep]

/-- Every commit the unit loop emits is a checkpoint commit; it leaves
`status` and the two style fields of the loaded order unchanged, and only
ever extends the serialized progress list. -/
theorem unitsLoop_commits (env : Env) (src : String) :
    ∀ (styles : List String) (first : Bool) (st : LoopState) (k : CommitKind) (snap : OrderRec),
      (k, snap) ∈ commits (unitsLoop env src first styles st).2 →
      k = .checkpoint ∧
      snap.status = st.mem.status ∧
      snap.style_image_urls = st.mem.style_image_urls ∧
      snap.style_image_url = st.mem.style_image_url ∧
      ∃ tail, snap.result_urls = .list (st.results.map serializeItem ++ tail) := by
  intro styles
  induction styles with
  | nil => intro first st k snap h; simp [unitsLoop, commits] at h
  | cons u rest ih =>
    intro first st k snap h
    rw [unitsLoop] at h
    rcases hA : attemptLoop env src u 3 st.pc st.fc with ⟨res, aevs, pcA, fcA⟩
    have hac : commits aevs = [] := by
      have hc := attemptLoop_commits env src u 3 st.pc st.fc
      rw [hA] at hc; exact hc
    have hpace : ∀ b : Bool, commits (if b then ([] : List Event) else [.sleep 30]) = [] := by
      intro b; rcases b <;> simp [commits]
    rw [hA] at h
    cases res with
    | error e =>
      simp only [commits_append, hac, hpace, List.append_nil] at h
      simp at h
    | ok val =>
      rcases val with ⟨r, j, tag⟩
      rcases hrec : unitsLoop env src false rest (unitStep env st r j pcA fcA)
        with ⟨res', evs'⟩
      simp only [hrec] at h
      have hsplit : (k, snap) = (CommitKind.checkpoint, (unitStep env st r j pcA fcA).mem) ∨
          (k, snap) ∈ commits evs' := by
        simp only [commits_append, hac, hpace, List.append_nil, List.nil_append] at h
        simpa [commits] using h
      obtain ⟨hm1, hm2, hm3, hm4, hm5⟩ := unitStep_mem env st r j pcA fcA
      rcases hsplit with heq | hmem
      · have hk : k = CommitKind.checkpoint := congrArg Prod.fst heq
        have hsnap : snap = (unitStep env st r j pcA fcA).mem := congrArg Prod.snd heq
        subst hk; subst hsnap
        refine ⟨rfl, hm1, hm2, hm3, [serializeItem r], ?_⟩
        rw [hm4]; simp
      · have hmem' : (k, snap) ∈ commits (unitsLoop env src false rest (unitStep env st r j pcA fcA)).2 := by
          rw [hrec]; exact hmem
        obtain ⟨hk, h1, h2, h3, tail, h4⟩ := ih false (unitStep env st r j pcA fcA) k snap hmem'
        refine ⟨hk, by rw [h1, hm1], by rw [h2, hm2], by rw [h3, hm3],
          serializeItem r :: tail, ?_⟩
        rw [h4, hm5]
        simp

theorem unitStep_consistent (env : Env) (st : LoopState) (r : ResVal) (j : String)
    (pc' fc' : Nat) :
    (unitStep env st r j pc' fc').mem.result_urls =
      .list ((unitStep env st r j pc' fc').results.map serializeItem) ∧
    (unitStep env st r j pc' fc').mem.style_transfer_job_id =
      some (String.intercalate "," (unitStep env st r j pc' fc').jobIds) ∧
    (unitStep env st r j pc' fc').mem.replicate_prediction_details =
      .list (unitStep env st r j pc' fc').details ∧
    (unitStep env st r j pc' fc').results.length = st.results.length + 1 ∧
    (unitStep env st r j pc' fc').jobIds.length = st.jobIds.length + 1 ∧
    (unitStep env st r j pc' fc').details.length = st.details.length + 1 := by
  simp [unitStep]

/-- A successful pass of the unit loop: `status` and the style fields are
untouched, each of the three parallel lists grows by one entry per style,
and (when at least one unit ran) the final in-memory order fields are the
serializations of the final lists. -/
theorem unitsLoop_inl (env : Env) (src : String) :
    ∀ (styles : List String) (first : Bool) (st st' : LoopState) (evs : List Event),
      unitsLoop env src first styles st = (.inl st', evs) →
      st'.mem.status = st.mem.status ∧
      st'.mem.style_image_urls = st.mem.style_image_urls ∧
      st'.mem.style_image_url = st.mem.style_image_url ∧
      st'.results.length = st.results.length + styles.length ∧
      st'.jobIds.length = st.jobIds.length + styles.length ∧
      st'.details.length = st.details.length + styles.length ∧
      (styles = [] → st' = st ∧ evs = []) ∧
      (styles ≠ [] →
        st'.mem.result_urls = .list (st'.results.map serializeItem) ∧
        st'.mem.style_transfer_job_id = some (String.intercalate "," st'.jobIds) ∧
        st'.mem.replicate_prediction_details = .list st'.details) := by
  intro styles
  induction styles with
  | nil =>
    intro first st st' evs h
    rw [unitsLoop] at h
    obtain ⟨h1, h2⟩ := Prod.mk.injEq .. ▸ h
    cases Sum.inl.injEq .. ▸ h1
    subst h2
    simp
  | cons u rest ih =>
    intro first st st' evs h
    rw [unitsLoop] at h
    rcases hA : attemptLoop env src u 3 st.pc st.fc with ⟨res, aevs, pcA, fcA⟩
    rw [hA] at h
    cases res with
    | error e => simp at h
    | ok val =>
      rcases val with ⟨r, j, tag⟩
      rcases hrec : unitsLoop env src false rest (unitStep env st r j pcA fcA)
        with ⟨res', evs'⟩
      simp only [hrec] at h
      cases res' with
      | inr p => simp at h
      | inl stI =>
        obtain ⟨h1, h2⟩ := Prod.mk.injEq .. ▸ h
        cases Sum.inl.injEq .. ▸ h1
        obtain ⟨g1, g2, g3, g4, g5, g6, gnil, gcons⟩ :=
          ih false (unitStep env st r j pcA fcA) st' evs' hrec
        obtain ⟨m1, m2, m3, m4, m5⟩ := unitStep_mem env st r j pcA fcA
        obtain ⟨c1, c2, c3, c4, c5, c6⟩ := unitStep_consistent env st r j pcA fcA
        refine ⟨by rw [g1, m1], by rw [g2, m2], by rw [g3, m3],
          by rw [g4, c4]; simp; omega, by rw [g5, c5]; simp; omega,
          by rw [g6, c6]; simp; omega, by simp, fun _ => ?_⟩
        by_cases hr : rest = []
        · obtain ⟨hst, _⟩ := gnil hr
          rw [hst]
          exact ⟨c1, c2, c3⟩
        · exact gcons hr

/-- All primary calls succeeding, the unit loop completes every remaining
unit, calling the provider once per style ref, strictly in list order, and
appending the per-call results in the same order. -/
theorem unitsLoop_allOk (env : Env) (src : String)
    (hOk : ∀ n, (env.primaryCalls n).isOk = true) :
    ∀ (styles : List String) (first : Bool) (st : LoopState),
      ∃ st' evs, unitsLoop env src first styles st = (.inl st', evs) ∧
        callStyleUrls evs = styles ∧
        st'.results = st.results ++
          (List.range styles.length).map (fun i => okRes (env.primaryCalls (st.pc + i))) ∧
        st'.pc = st.pc + styles.length := by
  intro styles
  induction styles with
  | nil => intro first st; exact ⟨st, [], rfl, rfl, by simp, by simp⟩
  | cons u rest ih =>
    intro first st
    obtain ⟨r, j, hc⟩ : ∃ r j, env.primaryCalls st.pc = .ok r j := by
      have hx := hOk st.pc
      cases hcc : env.primaryCalls st.pc with
      | ok r j => exact ⟨r, j, rfl⟩
      | exc e => rw [hcc] at hx; simp [CallResult.isOk] at hx
    obtain ⟨st', evs', hrec, hcall, hres, hpc⟩ :=
      ih false (unitStep env st r j (st.pc + 1) st.fc)
    have hstep : unitsLoop env src first (u :: rest) st =
        (.inl st',
          ((if first then ([] : List Event) else [.sleep 30])
            ++ [.providerCall .primary src u]
            ++ [.describeCall .primary j,
                .commit .checkpoint (unitStep env st r j (st.pc + 1) st.fc).mem])
            ++ evs') := by
      rw [unitsLoop, attemptLoop_ok env src u hc 3 st.fc]
      dsimp only
      rw [hrec]
    refine ⟨st', _, hstep, ?_, ?_, ?_⟩
    · rcases first <;> simp [callStyleUrls_append, callStyleUrls] <;> exact hcall
    · rw [hres]
      obtain ⟨_, _, _, _, m5⟩ := unitStep_mem env st r j (st.pc + 1) st.fc
      rw [m5]
      have hshift : ∀ i : Nat, st.pc + 1 + i = st.pc + (i + 1) := by omega
      simp only [unitStep, List.length_cons, List.range_succ_eq_map, List.map_cons,
        List.map_map, List.append_assoc, List.singleton_append, Nat.add_zero, hc, okRes]
      refine congrArg (fun l => st.results ++ r :: l) ?_
      apply List.map_congr_left
      intro i _
      simp [Function.comp, hshift i]
    · rw [hpc]
      simp [unitStep]
      omega

/-- Checkpoint commits write the three parallel lists together with one
entry per completed unit: committed lengths always agree when the resumed
lists agreed. -/
theorem unitsLoop_parallel (env : Env) (src : String) :
    ∀ (styles : List String) (first : Bool) (st : LoopState),
      st.jobIds.length = st.results.length →
      st.details.length = st.results.length →
      ∀ (k : CommitKind) (snap : OrderRec),
        (k, snap) ∈ commits (unitsLoop env src first styles st).2 →
        ∃ (rs : List ResVal) (js : List String) (ds : List PredRecord),
          snap.result_urls = .list (rs.map serializeItem) ∧
          snap.style_transfer_job_id = some (String.intercalate "," js) ∧
          snap.replicate_prediction_details = .list ds ∧
          js.length = rs.length ∧ ds.length = rs.length := by
  intro styles
  induction styles with
  | nil => intro first st _ _ k snap h; simp [unitsLoop, commits] at h
  | cons u rest ih =>
    intro first st hj hd k snap h
    rw [unitsLoop] at h
    rcases hA : attemptLoop env src u 3 st.pc st.fc with ⟨res, aevs, pcA, fcA⟩
    have hac : commits aevs = [] := by
      have hcna := attemptLoop_commits env src u 3 st.pc st.fc
      rw [hA] at hcna; exact hcna
    have hpace : ∀ b : Bool, commits (if b then ([] : List Event) else [.sleep 30]) = [] := by
      intro b; rcases b <;> simp [commits]
    rw [hA] at h
    cases res with
    | error e =>
      simp only [commits_append, hac, hpace, List.append_nil] at h
      simp at h
    | ok val =>
      rcases val with ⟨r, j, tag⟩
      rcases hrec : unitsLoop env src false rest (unitStep env st r j pcA fcA)
        with ⟨res', evs'⟩
      simp only [hrec] at h
      have hsplit : (k, snap) = (CommitKind.checkpoint, (unitStep env st r j pcA fcA).mem) ∨
          (k, snap) ∈ commits evs' := by
        simp only [commits_append, hac, hpace, List.append_nil, List.nil_append] at h
        simpa [commits] using h
      obtain ⟨c1, c2, c3, c4, c5, c6⟩ := unitStep_consistent env st r j pcA fcA
      rcases hsplit with heq | hmem
      · have hsnap : snap = (unitStep env st r j pcA fcA).mem := congrArg Prod.snd heq
        subst hsnap
        exact ⟨(unitStep env st r j pcA fcA).results, (unitStep env st r j pcA fcA).jobIds,
          (unitStep env st r j pcA fcA).details, c1, c2, c3,
          by rw [c4, c5, hj], by rw [c4, c6, hd]⟩
      · have hmem' : (k, snap) ∈ commits (unitsLoop env src false rest (unitStep env st r j pcA fcA)).2 := by
          rw [hrec]; exact hmem
        exact ih false (unitStep env st r j pcA fcA)
          (by rw [c4, c5, hj]) (by rw [c4, c6, hd]) k snap hmem'

/-- Primary fails twice, third attempt succeeds: two executor-level retries
with a fixed 10-second wait each. -/
theorem attemptLoop_ok2 (env : Env) (src u : String) (pc fc : Nat) {e0 : Exc}
    {r : ResVal} {j : String}
    (h0 : env.primaryCalls pc = .exc e0)
    (h1 : env.primaryCalls (pc + 1) = .ok r j) :
    attemptLoop env src u 3 pc fc =
      (.ok (r, j, .primary),
        [.providerCall .primary src u, .sleep 10, .providerCall .primary src u],
        pc + 2, fc) := by
  simp only [attemptLoop]
  rw [h0, h1]

theorem attemptLoop_ok3 (env : Env) (src u : String) (pc fc : Nat) {e0 e1 : Exc}
    {r : ResVal} {j : String}
    (h0 : env.primaryCalls pc = .exc e0)
    (h1 : env.primaryCalls (pc + 1) = .exc e1)
    (h2 : env.primaryCalls (pc + 2) = .ok r j) :
    attemptLoop env src u 3 pc fc =
      (.ok (r, j, .primary),
        [.providerCall .primary src u, .sleep 10, .providerCall .primary src u,
         .sleep 10, .providerCall .primary src u],
        pc + 3, fc) := by
  simp only [attemptLoop, show pc + 1 + 1 = pc + 2 from rfl]
  unfold attemptLast
  rw [h0, h1, h2]

/-- All three primary attempts fail and no fallback is configured: the last
primary error is re-raised after two 10-second waits. -/
theorem attemptLoop_exhaust_noFallback (env : Env) (src u : String) (pc fc : Nat)
    {e0 e1 e2 : Exc}
    (h0 : env.primaryCalls pc = .exc e0)
    (h1 : env.primaryCalls (pc + 1) = .exc e1)
    (h2 : env.primaryCalls (pc + 2) = .exc e2)
    (hnf : fallbackAvailable env = false) :
    attemptLoop env src u 3 pc fc =
      (.error e2,
        [.providerCall .primary src u, .sleep 10, .providerCall .primary src u,
         .sleep 10, .providerCall .primary src u],
        pc + 3, fc) := by
  simp only [attemptLoop, show pc + 1 + 1 = pc + 2 from rfl]
  unfold attemptLast
  rw [h0, h1, h2, hnf]
  rfl

/-- All three primary attempts fail and the configured fallback succeeds:
the unit succeeds through the fallback. -/
theorem attemptLoop_fb_ok (env : Env) (src u : String) (pc fc : Nat)
    {e0 e1 e2 : Exc} {r : ResVal} {j : String}
    (h0 : env.primaryCalls pc = .exc e0)
    (h1 : env.primaryCalls (pc + 1) = .exc e1)
    (h2 : env.primaryCalls (pc + 2) = .exc e2)
    (hfb : fallbackAvailable env = true)
    (hfc : env.fallbackCalls fc = .ok r j) :
    attemptLoop env src u 3 pc fc =
      (.ok (r, j, .fallback),
        [.providerCall .primary src u, .sleep 10, .providerCall .primary src u,
         .sleep 10, .providerCall .primary src u, .providerCall .fallback src u],
        pc + 3, fc + 1) := by
  simp only [attemptLoop, show pc + 1 + 1 = pc + 2 from rfl]
  unfold attemptLast
  rw [h0, h1, h2, hfb, hfc]
  rfl

/-- All three primary attempts fail and the fallback also fails: the
fallback error is propagated with the third primary error as its cause
(`raise fallback_err from e`). -/
theorem attemptLoop_fb_exc (env : Env) (src u : String) (pc fc : Nat)
    {e0 e1 e2 f : Exc}
    (h0 : env.primaryCalls pc = .exc e0)
    (h1 : env.primaryCalls (pc + 1) = .exc e1)
    (h2 : env.primaryCalls (pc + 2) = .exc e2)
    (hfb : fallbackAvailable env = true)
    (hfc : env.fallbackCalls fc = .exc f) :
    attemptLoop env src u 3 pc fc =
      (.error { f with cause := some (e2.kind, e2.msg) },
        [.providerCall .primary src u, .sleep 10, .providerCall .primary src u,
         .sleep 10, .providerCall .primary src u, .providerCall .fallback src u],
        pc + 3, fc + 1) := by
  simp only [attemptLoop, show pc + 1 + 1 = pc + 2 from rfl]
  unfold attemptLast
  rw [h0, h1, h2, hfb, hfc]
  rfl

/-- A failure of the first remaining unit aborts the loop with the state
unchanged and no commit. -/
theorem unitsLoop_headFail (env : Env) (src u : String) (rest : List String)
    (first : Bool) (st : LoopState) {e : Exc} {aevs : List Event} {pcA fcA : Nat}
    (hA : attemptLoop env src u 3 st.pc st.fc = (.error e, aevs, pcA, fcA)) :
    unitsLoop env src first (u :: rest) st =
      (.inr (e, st), (if first then [] else [.sleep 30]) ++ aevs) := by
  rw [unitsLoop, hA]

/-- With the fallback configured and this unit's fallback call succeeding,
the attempt loop cannot fail. -/
theorem attemptLoop_sufficient (env : Env) (src u : String) (pc fc : Nat)
    (hfb : fallbackAvailable env = true) (hf : (env.fallbackCalls fc).isOk = true) :
    ∃ r j tag evs pc' fc',
      attemptLoop env src u 3 pc fc = (.ok (r, j, tag), evs, pc', fc') := by
  cases h0 : env.primaryCalls pc with
  | ok r j => exact ⟨r, j, .primary, _, _, _, attemptLoop_ok env src u h0 3 fc⟩
  | exc e0 =>
    cases h1 : env.primaryCalls (pc + 1) with
    | ok r j => exact ⟨r, j, .primary, _, _, _, attemptLoop_ok2 env src u pc fc h0 h1⟩
    | exc e1 =>
      cases h2 : env.primaryCalls (pc + 2) with
      | ok r j => exact ⟨r, j, .primary, _, _, _, attemptLoop_ok3 env src u pc fc h0 h1 h2⟩
      | exc e2 =>
        cases hfc : env.fallbackCalls fc with
        | ok r j =>
          exact ⟨r, j, .fallback, _, _, _, attemptLoop_fb_ok env src u pc fc h0 h1 h2 hfb hfc⟩
        | exc f => rw [hfc] at hf; simp [CallResult.isOk] at hf

/-- When every fallback call succeeds, the unit loop completes every unit. -/
theorem unitsLoop_allFallbackOk (env : Env) (src : String)
    (hfb : fallbackAvailable env = true)
    (hf : ∀ n, (env.fallbackCalls n).isOk = true) :
    ∀ (styles : List String) (first : Bool) (st : LoopState),
      ∃ st' evs, unitsLoop env src first styles st = (.inl st', evs) := by
  intro styles
  induction styles with
  | nil => intro first st; exact ⟨st, [], rfl⟩
  | cons u rest ih =>
    intro first st
    obtain ⟨r, j, tag, aevs, pc', fc', hA⟩ :=
      attemptLoop_sufficient env src u st.pc st.fc hfb (hf st.fc)
    obtain ⟨st', evs', hrec⟩ := ih false (unitStep env st r j pc' fc')
    refine ⟨st',
      (if first then ([] : List Event) else [.sleep 30]) ++ aevs
        ++ [.describeCall tag j, .commit .checkpoint (unitStep env st r j pc' fc').mem]
        ++ evs', ?_⟩
    rw [unitsLoop, hA]
    dsimp only
    rw [hrec]

/-- When every provider call (primary and fallback alike) signals
rate-limit, the attempt loop fails with a rate-limit exception. -/
theorem attemptLoop_rateLimited (env : Env) (src u : String) (pc fc : Nat)
    (hp : ∀ n, ∃ e, env.primaryCalls n = .exc e ∧ e.kind = .rateLimit)
    (hf : ∀ n, ∃ e, env.fallbackCalls n = .exc e ∧ e.kind = .rateLimit) :
    ∃ e aevs pcA fcA, attemptLoop env src u 3 pc fc = (.error e, aevs, pcA, fcA) ∧
      e.kind = .rateLimit := by
  obtain ⟨e0, h0, _⟩ := hp pc
  obtain ⟨e1, h1, _⟩ := hp (pc + 1)
  obtain ⟨e2, h2, k2⟩ := hp (pc + 2)
  by_cases hfb : fallbackAvailable env = true
  · obtain ⟨f, hfc, kf⟩ := hf fc
    exact ⟨_, _, _, _, attemptLoop_fb_exc env src u pc fc h0 h1 h2 hfb hfc, kf⟩
  · have hfb' : fallbackAvailable env = false := by simpa using hfb
    exact ⟨_, _, _, _, attemptLoop_exhaust_noFallback env src u pc fc h0 h1 h2 hfb', k2⟩

/-- The early-finalize path applies exactly when the persisted progress is
a parseable list covering every target ref (and the details column parses). -/
theorem resume_none (o : OrderRec) (S : List String)
    (h : resumeFromProgress o S = none) :
    ∃ xs, o.result_urls = .list xs ∧ S.length ≤ xs.length ∧
      detailsParseOk o.replicate_prediction_details = true := by
  unfold resumeFromProgress at h
  cases hru : o.result_urls with
  | null => rw [hru] at h; simp at h
  | invalid raw => rw [hru] at h; simp at h
  | notList raw => rw [hru] at h; simp at h
  | list xs =>
    rw [hru] at h
    refine ⟨xs, rfl, ?_⟩
    cases hd : o.replicate_prediction_details with
    | invalid raw => rw [hd] at h; simp at h
    | null =>
      rw [hd] at h
      by_cases hle : S.length ≤ xs.length
      · exact ⟨hle, rfl⟩
      · simp [hle] at h
    | list ps =>
      rw [hd] at h
      by_cases hle : S.length ≤ xs.length
      · exact ⟨hle, rfl⟩
      · simp [hle] at h
    | notList raw =>
      rw [hd] at h
      by_cases hle : S.length ≤ xs.length
      · exact ⟨hle, rfl⟩
      · simp [hle] at h

/-- The resume block's recovered `results` list has exactly `skip` entries,
and `skip` is strictly below the target count whenever targets exist. -/
theorem resume_some (o : OrderRec) (S : List String) (rd : ResumeData)
    (h : resumeFromProgress o S = some rd) :
    rd.results.length = rd.skip ∧ (S ≠ [] → rd.skip < S.length) := by
  unfold resumeFromProgress at h
  cases hru : o.result_urls with
  | null =>
    rw [hru] at h
    simp only [Option.some.injEq] at h
    subst h
    exact ⟨rfl, fun hS => List.length_pos.mpr hS⟩
  | invalid raw =>
    rw [hru] at h
    simp only [Option.some.injEq] at h
    subst h
    exact ⟨rfl, fun hS => List.length_pos.mpr hS⟩
  | notList raw =>
    rw [hru] at h
    simp only [Option.some.injEq] at h
    subst h
    exact ⟨rfl, fun hS => List.length_pos.mpr hS⟩
  | list xs =>
    rw [hru] at h
    cases hd : o.replicate_prediction_details with
    | invalid raw =>
      rw [hd] at h
      simp only [Option.some.injEq] at h
      subst h
      exact ⟨rfl, fun hS => List.length_pos.mpr hS⟩
    | null =>
      rw [hd] at h
      by_cases hle : S.length ≤ xs.length
      · simp [hle] at h
      · simp only [hle, if_false, Option.some.injEq] at h
        subst h
        exact ⟨by simp, fun _ => by dsimp only; omega⟩
    | list ps =>
      rw [hd] at h
      by_cases hle : S.length ≤ xs.length
      · simp [hle] at h
      · simp only [hle, if_false, Option.some.injEq] at h
        subst h
        exact ⟨by simp, fun _ => by dsimp only; omega⟩
    | notList raw =>
      rw [hd] at h
      by_cases hle : S.length ≤ xs.length
      · simp [hle] at h
      · simp only [hle, if_false, Option.some.injEq] at h
        subst h
        exact ⟨by simp, fun _ => by dsimp only; omega⟩

/-- Concrete environment where every primary call succeeds (used by
witnesses and counterexamples). -/
def okEnv : Env :=
  { primaryCalls := fun n => .ok (.url ("https://prov/img" ++ toString n)) ("jid" ++ toString n)
    fallbackCalls := fun n => .ok (.url ("https://fb/img" ++ toString n)) ("fb" ++ toString n)
    describeResults := fun _ => none
    useOpenai := true
    hasReplicateToken := true
    publicBaseUrl := some "https://artify.example"
    hasSourceImageRow := false
    fetchOutcomes := fun _ => .stored
    persistOuterFail := false
    now := 1700 }

/-- Concrete order with two target style refs and no prior progress. -/
def baseOrder : OrderRec :=
  { status := "paid"
    style_image_urls := .list ["https://sty/a-01.jpg", "https://sty/a-02.jpg"]
    style_image_url := none
    result_urls := .null
    style_transfer_job_id := none
    replicate_prediction_details := .null
    style_transfer_error := none
    completed_at := none
    failed_at := none
    image_url := "https://up/img.jpg"
    email := "user@example.com" }

/-- C5: a false `try_acquire` makes the run a complete no-op — no events,
no commits, the persisted order unchanged; a failing lock primitive logs a
warning, reports the lock as held (fail open) and the run proceeds exactly
as an acquired run would, after the warning. -/
theorem c5_lock_skip_and_fail_open :
    (∀ (env : Env) (orderId : String) (o : OrderRec),
      runStyleTransferSync .held env orderId o = ⟨o, []⟩) ∧
    tryAcquireOrderLockSync .infraError = (true, [.lockWarn]) ∧
    (∀ (env : Env) (orderId : String) (o : OrderRec),
      (runStyleTransferSync .infraError env orderId o).db =
        (runStyleTransferSync .acquired env orderId o).db ∧
      (runStyleTransferSync .infraError env orderId o).trace =
        .lockWarn :: (runStyleTransferSync .acquired env orderId o).trace) := by
  refine ⟨?_, rfl, ?_⟩
  · intro env oid o
    rfl
  · intro env oid o
    unfold runStyleTransferSync
    dsimp only [tryAcquireOrderLockSync]
    rcases hb : runBody env oid o with ⟨db, bodyEvs⟩
    simp

/-- Closed instance of C5 at a concrete held lock and a concrete
infrastructure failure. -/
theorem c5_witness :
    runStyleTransferSync .held okEnv "w5" baseOrder = ⟨baseOrder, []⟩ ∧
    (runStyleTransferSync .infraError okEnv "w5" baseOrder).trace =
      .lockWarn :: (runStyleTransferSync .acquired okEnv "w5" baseOrder).trace :=
  ⟨c5_lock_skip_and_fail_open.1 okEnv "w5" baseOrder,
   (c5_lock_skip_and_fail_open.2.2 okEnv "w5" baseOrder).2⟩

/-- C9 counterexample: on an order with no style references, the run sends
the order-failed notification (main.py 1634), contradicting the claim's
"no notify", and the stored error text is "Style reference image missing",
not "missing style reference". -/
theorem c9_counterexample :
    Event.emailFailed "Style reference image missing" ∈
      (runStyleTransferSync .acquired okEnv "ord9"
        { baseOrder with style_image_urls := .null }).trace ∧
    (runStyleTransferSync .acquired okEnv "ord9"
      { baseOrder with style_image_urls := .null }).db.style_transfer_error ≠
      some "missing style reference" := by
  decide

/-- C9 (amended): an Executor run on an order whose target style-ref list is
empty transitions the order directly to `failed` with
`last_error = "Style reference image missing"` and returns — it never sets
`processing` and makes no provider call — and it notifies the order-failed
collaborator (sends the failure e-mail). -/
theorem c9_empty_style_refs_fail (env : Env) (orderId : String) (o : OrderRec)
    (hS : computeStyleUrls o = []) :
    (runStyleTransferSync .acquired env orderId o).db =
      { o with
        status := St.failed
        style_transfer_error := some "Style reference image missing"
        failed_at := some env.now } ∧
    (runStyleTransferSync .acquired env orderId o).trace =
      [.commit .validationFailed
        { o with
          status := St.failed
          style_transfer_error := some "Style reference image missing"
          failed_at := some env.now },
       .emailFailed "Style reference image missing", .releaseLock] ∧
    (∀ snap, (CommitKind.setProcessing, snap) ∉
      commits (runStyleTransferSync .acquired env orderId o).trace) ∧
    callStyleUrls (runStyleTransferSync .acquired env orderId o).trace = [] := by
  have hrun : runStyleTransferSync .acquired env orderId o =
      ⟨{ o with
          status := St.failed
          style_transfer_error := some "Style reference image missing"
          failed_at := some env.now },
        [.commit .validationFailed
          { o with
            status := St.failed
            style_transfer_error := some "Style reference image missing"
            failed_at := some env.now },
         .emailFailed "Style reference image missing", .releaseLock]⟩ := by
    unfold runStyleTransferSync
    dsimp only [tryAcquireOrderLockSync]
    unfold runBody
    rw [hS]
    rfl
  rw [hrun]
  refine ⟨rfl, rfl, ?_, rfl⟩
  intro snap h
  simp [commits] at h

/-- Closed instance of C9 at a concrete order with no style references. -/
theorem c9_witness :
    computeStyleUrls { baseOrder with style_image_urls := .null } = [] ∧
    (runStyleTransferSync .acquired okEnv "w9"
      { baseOrder with style_image_urls := .null }).db.status = St.failed ∧
    Event.emailFailed "Style reference image missing" ∈
      (runStyleTransferSync .acquired okEnv "w9"
        { baseOrder with style_image_urls := .null }).trace := by
  have h := c9_empty_style_refs_fail okEnv "w9"
    { baseOrder with style_image_urls := .null } (by decide)
  refine ⟨by decide, ?_, ?_⟩
  · rw [h.1]
  · rw [h.2.1]; decide

/-- The initial loop state of the main path (main.py 1673-1701). -/
def initState (o : OrderRec) (rd : ResumeData) : LoopState :=
  ⟨{ o with status := St.processing }, rd.results, rd.jobIds, rd.details, 0, 0, 0⟩

/-- Full-run characterization of the success path: processing commit, the
unit-loop events, durable persistence and overwrite commit, finalize commit,
ready notification, lock release. -/
theorem run_success (env : Env) (oid : String) (o : OrderRec) (rd : ResumeData)
    (hS : computeStyleUrls o ≠ [])
    (hres : resumeFromProgress o (computeStyleUrls o) = some rd)
    {st : LoopState} {evs : List Event}
    (hloop : unitsLoop env (effectiveSourceUrl env oid o) true
        ((computeStyleUrls o).drop rd.skip) (initState o rd) = (.inl st, evs)) :
    runStyleTransferSync .acquired env oid o =
      ⟨{ st.mem with
          result_urls := .list (persistResultImages (effBase env) oid env.fetchOutcomes
            env.persistOuterFail st.results)
          status := St.completed
          completed_at := some env.now },
        .commit .setProcessing { o with status := St.processing } :: evs
          ++ [.commit .persistOverwrite
                { st.mem with
                  result_urls := .list (persistResultImages (effBase env) oid
                    env.fetchOutcomes env.persistOuterFail st.results) },
              .commit .finalize
                { st.mem with
                  result_urls := .list (persistResultImages (effBase env) oid
                    env.fetchOutcomes env.persistOuterFail st.results)
                  status := St.completed
                  completed_at := some env.now },
              .emailReady] ++ [.releaseLock]⟩ := by
  have hS' : ¬((computeStyleUrls o).isEmpty = true) := by
    cases hcs : computeStyleUrls o with
    | nil => exact absurd hcs hS
    | cons a l => simp
  unfold runStyleTransferSync
  dsimp only [tryAcquireOrderLockSync]
  unfold runBody
  dsimp only
  rw [if_neg hS', hres]
  dsimp only
  rw [show unitsLoop env (effectiveSourceUrl env oid o) true
      ((computeStyleUrls o).drop rd.skip)
      ⟨{ o with status := St.processing }, rd.results, rd.jobIds, rd.details, 0, 0, 0⟩
    = (.inl st, evs) from hloop]
  rfl

/-- C10: a persisted `result_urls` value that is non-empty but not a JSON
list (invalid JSON, or a non-list value) makes the run treat the done count
as zero and regenerate every unit from the first target ref; conversely a
non-zero resume count arises only from a progress column that parses as a
JSON list. -/
theorem c10_unparseable_progress_resets :
    (∀ (env : Env) (orderId : String) (o : OrderRec) (raw : String),
      computeStyleUrls o ≠ [] →
      (o.result_urls = .invalid raw ∨ o.result_urls = .notList raw) →
      resumeFromProgress o (computeStyleUrls o) = some ⟨[], [], [], 0⟩ ∧
      ((∀ n, (env.primaryCalls n).isOk = true) →
        callStyleUrls (runStyleTransferSync .acquired env orderId o).trace =
          computeStyleUrls o)) ∧
    (∀ (o : OrderRec) (S : List String) (rd : ResumeData),
      resumeFromProgress o S = some rd → 0 < rd.skip →
      ∃ xs, o.result_urls = .list xs ∧ rd.skip = xs.length) := by
  constructor
  · intro env oid o raw hS hbad
    have hres : resumeFromProgress o (computeStyleUrls o) = some ⟨[], [], [], 0⟩ := by
      unfold resumeFromProgress
      rcases hbad with hbad | hbad <;> rw [hbad]
    refine ⟨hres, fun hOk => ?_⟩
    obtain ⟨st, evs, hloop, hcall, hres2, hpc⟩ :=
      unitsLoop_allOk env (effectiveSourceUrl env oid o) hOk
        ((computeStyleUrls o).drop 0) true (initState o ⟨[], [], [], 0⟩)
    rw [run_success env oid o ⟨[], [], [], 0⟩ hS hres hloop]
    rw [List.drop_zero] at hcall
    simp only [callStyleUrls_append, callStyleUrls, List.filterMap_cons, List.filterMap_nil,
      List.filterMap_append]
    simpa using hcall
  · intro o S rd h hskip
    unfold resumeFromProgress at h
    cases hru : o.result_urls with
    | null =>
      rw [hru] at h
      simp only [Option.some.injEq] at h
      rw [← h] at hskip
      simp at hskip
    | invalid raw =>
      rw [hru] at h
      simp only [Option.some.injEq] at h
      rw [← h] at hskip
      simp at hskip
    | notList raw =>
      rw [hru] at h
      simp only [Option.some.injEq] at h
      rw [← h] at hskip
      simp at hskip
    | list xs =>
      refine ⟨xs, rfl, ?_⟩
      rw [hru] at h
      cases hd : o.replicate_prediction_details with
      | invalid raw =>
        rw [hd] at h
        simp only [Option.some.injEq] at h
        rw [← h] at hskip
        simp at hskip
      | null =>
        rw [hd] at h
        by_cases hle : S.length ≤ xs.length
        · simp [hle] at h
        · simp only [hle, if_false, Option.some.injEq] at h
          rw [← h]
      | list ps =>
        rw [hd] at h
        by_cases hle : S.length ≤ xs.length
        · simp [hle] at h
        · simp only [hle, if_false, Option.some.injEq] at h
          rw [← h]
      | notList raw =>
        rw [hd] at h
        by_cases hle : S.length ≤ xs.length
        · simp [hle] at h
        · simp only [hle, if_false, Option.some.injEq] at h
          rw [← h]

/-- Closed instance of C10: a corrupted progress column on an order with two
target refs regenerates both units. -/
theorem c10_witness :
    computeStyleUrls { baseOrder with result_urls := .invalid "not json" } ≠ [] ∧
    callStyleUrls (runStyleTransferSync .acquired okEnv "w10"
        { baseOrder with result_urls := .invalid "not json" }).trace =
      computeStyleUrls { baseOrder with result_urls := .invalid "not json" } := by
  refine ⟨by decide, ?_⟩
  exact (c10_unparseable_progress_resets.1 okEnv "w10"
    { baseOrder with result_urls := .invalid "not json" } "not json"
    (by decide) (Or.inl rfl)).2 (fun n => rfl)

/-- When the progress column lists at least as many results as there are
target refs and the details column parses, the resume block selects the
early-finalize path. -/
theorem resume_none_of (o : OrderRec) (S : List String) (xs : List String)
    (hxs : o.result_urls = .list xs)
    (hd : detailsParseOk o.replicate_prediction_details = true)
    (hlen : S.length ≤ xs.length) :
    resumeFromProgress o S = none := by
  unfold resumeFromProgress
  rw [hxs]
  cases hdd : o.replicate_prediction_details with
  | invalid raw => rw [hdd] at hd; simp [detailsParseOk] at hd
  | null => simp [hlen]
  | list ps => simp [hlen]
  | notList raw => simp [hlen]

/-- C3 counterexample: an order whose persisted progress already covers both
target refs, but whose diagnostics column holds invalid JSON.  The resume
try-block raises while parsing it (main.py 1648-1649, before the length
check of 1650), the except arm resets the done count to zero, and the run
makes provider calls for both units — the claim promises none. -/
theorem c3_counterexample :
    ((progressList { baseOrder with
        result_urls := .list ["https://r/1", "https://r/2"]
        replicate_prediction_details := .invalid "truncated" }).length ≥
      (computeStyleUrls { baseOrder with
        result_urls := .list ["https://r/1", "https://r/2"]
        replicate_prediction_details := .invalid "truncated" }).length) ∧
    callStyleUrls (runStyleTransferSync .acquired okEnv "cx3"
      { baseOrder with
        result_urls := .list ["https://r/1", "https://r/2"]
        replicate_prediction_details := .invalid "truncated" }).trace ≠ [] := by
  decide

/-- C3 (amended): for every order whose parsed progress covers every target
ref — provided the diagnostics column is absent or parses — the run makes no
provider call and leaves progress untouched; when `status` is not yet
`completed` it commits exactly the idempotent finalize (stamping the
completion time only if absent) and returns; when it already is, the run
writes nothing at all. -/
theorem c3_already_complete (env : Env) (orderId : String) (o : OrderRec) (xs : List String)
    (hS : computeStyleUrls o ≠ [])
    (hxs : o.result_urls = .list xs)
    (hd : detailsParseOk o.replicate_prediction_details = true)
    (hlen : (computeStyleUrls o).length ≤ xs.length) :
    callStyleUrls (runStyleTransferSync .acquired env orderId o).trace = [] ∧
    progressList (runStyleTransferSync .acquired env orderId o).db = xs ∧
    (runStyleTransferSync .acquired env orderId o).db.status = St.completed ∧
    (o.status ≠ St.completed →
      (runStyleTransferSync .acquired env orderId o).db =
        { o with
          status := St.completed
          completed_at := some (o.completed_at.getD env.now) } ∧
      (runStyleTransferSync .acquired env orderId o).trace =
        [.commit .earlyFinalize
          { o with
            status := St.completed
            completed_at := some (o.completed_at.getD env.now) }, .releaseLock]) ∧
    (o.status = St.completed →
      (runStyleTransferSync .acquired env orderId o).db = o ∧
      (runStyleTransferSync .acquired env orderId o).trace = [.releaseLock]) := by
  have hres := resume_none_of o (computeStyleUrls o) xs hxs hd hlen
  have hS' : ¬((computeStyleUrls o).isEmpty = true) := by
    cases hcs : computeStyleUrls o with
    | nil => exact absurd hcs hS
    | cons a l => simp
  have hrun : runStyleTransferSync .acquired env orderId o =
      if o.status ≠ St.completed then
        ⟨{ o with
            status := St.completed
            completed_at := some (o.completed_at.getD env.now) },
         [.commit .earlyFinalize
           { o with
             status := St.completed
             completed_at := some (o.completed_at.getD env.now) }, .releaseLock]⟩
      else ⟨o, [.releaseLock]⟩ := by
    unfold runStyleTransferSync
    dsimp only [tryAcquireOrderLockSync]
    unfold runBody
    dsimp only
    rw [if_neg hS', hres]
    dsimp only
    by_cases hst : o.status = St.completed
    · rw [if_neg (by simp [hst]), if_neg (by simp [hst])]
      rfl
    · rw [if_pos (by simp [hst]), if_pos (by simp [hst])]
      rfl
  by_cases hst : o.status = St.completed
  · rw [hrun, if_neg (by simp [hst])]
    exact ⟨rfl, by simp [progressList, hxs], by rw [hst],
      fun hne => absurd hst hne, fun _ => ⟨rfl, rfl⟩⟩
  · rw [hrun, if_pos (by simp [hst])]
    refine ⟨rfl, by simp [progressList, hxs], rfl, fun _ => ⟨rfl, rfl⟩, fun heq => absurd heq hst⟩

/-- Closed instance of C3: an already-complete order (status left in
`processing`) is finalized with no provider calls and unchanged progress. -/
theorem c3_witness :
    (computeStyleUrls { baseOrder with
        status := "processing"
        result_urls := .list ["https://r/1", "https://r/2"] } ≠ []) ∧
    callStyleUrls (runStyleTransferSync .acquired okEnv "w3"
      { baseOrder with
        status := "processing"
        result_urls := .list ["https://r/1", "https://r/2"] }).trace = [] ∧
    progressList (runStyleTransferSync .acquired okEnv "w3"
      { baseOrder with
        status := "processing"
        result_urls := .list ["https://r/1", "https://r/2"] }).db =
      ["https://r/1", "https://r/2"] ∧
    (runStyleTransferSync .acquired okEnv "w3"
      { baseOrder with
        status := "processing"
        result_urls := .list ["https://r/1", "https://r/2"] }).db.status = St.completed := by
  have h := c3_already_complete okEnv "w3"
    { baseOrder with
      status := "processing"
      result_urls := .list ["https://r/1", "https://r/2"] }
    ["https://r/1", "https://r/2"] (by decide) rfl (by decide) (by decide)
  exact ⟨by decide, h.1, h.2.1, h.2.2.1⟩

/-- `computeStyleUrls` depends only on the two style fields. -/
theorem computeStyleUrls_congr {o o' : OrderRec}
    (h1 : o'.style_image_urls = o.style_image_urls)
    (h2 : o'.style_image_url = o.style_image_url) :
    computeStyleUrls o' = computeStyleUrls o := by
  unfold computeStyleUrls
  rw [h1, h2]

theorem mem_commits_cons_commit {k k0 : CommitKind} {snap s0 : OrderRec} {l : List Event}
    (h : (k, snap) ∈ commits (.commit k0 s0 :: l)) :
    (k = k0 ∧ snap = s0) ∨ (k, snap) ∈ commits l := by
  simp only [commits, List.filterMap_cons] at h
  simpa [commits, Prod.ext_iff] using h

theorem mem_commits_cons_other {k : CommitKind} {snap : OrderRec} {e : Event} {l : List Event}
    (hne : ∀ k0 s0, e ≠ .commit k0 s0)
    (h : (k, snap) ∈ commits (e :: l)) : (k, snap) ∈ commits l := by
  cases e <;> first
    | exact absurd rfl (hne _ _)
    | simpa [commits, List.filterMap_cons] using h

theorem mem_commits_append {k : CommitKind} {snap : OrderRec} {a b : List Event}
    (h : (k, snap) ∈ commits (a ++ b)) :
    (k, snap) ∈ commits a ∨ (k, snap) ∈ commits b := by
  rw [commits_append] at h
  exact List.mem_append.mp h

/-- Every commit of a run body whose snapshot carries `status = completed`
has progress covering every target ref. -/
theorem runBody_completed_commits (env : Env) (oid : String) (o : OrderRec)
    (k : CommitKind) (snap : OrderRec)
    (hmem : (k, snap) ∈ commits (runBody env oid o).2)
    (hst : snap.status = St.completed) :
    (computeStyleUrls snap).length ≤ (progressList snap).length := by
  have hproc : ¬(St.processing = St.completed) := by simp [St.processing, St.completed]
  have hfail : ¬(St.failed = St.completed) := by simp [St.failed, St.completed]
  unfold runBody at hmem
  dsimp only at hmem
  by_cases hS : (computeStyleUrls o).isEmpty = true
  · rw [if_pos hS] at hmem
    obtain h | hmem := mem_commits_cons_commit hmem
    · obtain ⟨-, hsnap⟩ := h
      subst hsnap
      exact absurd hst hfail
    · simp [commits] at hmem
  · rw [if_neg hS] at hmem
    cases hres : resumeFromProgress o (computeStyleUrls o) with
    | none =>
      rw [hres] at hmem
      obtain ⟨xs, hxs, hlen, -⟩ := resume_none o (computeStyleUrls o) hres
      by_cases hic : o.status = St.completed
      · rw [if_neg (by simp [hic])] at hmem
        simp [commits] at hmem
      · rw [if_pos (by simp [hic])] at hmem
        obtain h | hmem := mem_commits_cons_commit hmem
        · obtain ⟨-, hsnap⟩ := h
          subst hsnap
          have hcs : computeStyleUrls
              { o with
                status := St.completed
                completed_at := some (o.completed_at.getD env.now) } = computeStyleUrls o :=
            computeStyleUrls_congr rfl rfl
          rw [hcs]
          simp [progressList, hxs, hlen]
        · simp [commits] at hmem
    | some rd =>
      rw [hres] at hmem
      dsimp only at hmem
      rcases hloop : unitsLoop env (effectiveSourceUrl env oid o) true
          ((computeStyleUrls o).drop rd.skip) (initState o rd) with ⟨res, evs⟩
      rw [show unitsLoop env (effectiveSourceUrl env oid o) true
          ((computeStyleUrls o).drop rd.skip)
          ⟨{ o with status := St.processing }, rd.results, rd.jobIds, rd.details, 0, 0, 0⟩
        = (res, evs) from hloop] at hmem
      have hloopmem : ∀ k' snap', (k', snap') ∈ commits evs →
          snap'.status = St.processing := by
        intro k' snap' hm
        have h := unitsLoop_commits env (effectiveSourceUrl env oid o)
          ((computeStyleUrls o).drop rd.skip) true (initState o rd) k' snap'
          (by rw [hloop]; exact hm)
        exact h.2.1
      cases res with
      | inl st =>
        dsimp only at hmem
        obtain ⟨g1, g2, g3, g4, -, -, -, -⟩ :=
          unitsLoop_inl env (effectiveSourceUrl env oid o)
            ((computeStyleUrls o).drop rd.skip) true (initState o rd) st evs hloop
        obtain h | hmem := mem_commits_cons_commit hmem
        · obtain ⟨-, hsnap⟩ := h
          subst hsnap
          exact absurd hst hproc
        obtain hmem | hmem := mem_commits_append hmem
        · have h := hloopmem _ _ hmem
          rw [h] at hst
          exact absurd hst hproc
        obtain h | hmem := mem_commits_cons_commit hmem
        · -- persistOverwrite commit
          obtain ⟨-, hsnap⟩ := h
          subst hsnap
          dsimp only at hst
          rw [g1] at hst
          exact absurd hst hproc
        obtain h | hmem := mem_commits_cons_commit hmem
        · -- finalize commit
          obtain ⟨-, hsnap⟩ := h
          subst hsnap
          have hstyle : computeStyleUrls
              { st.mem with
                result_urls := .list (persistResultImages (effBase env) oid
                  env.fetchOutcomes env.persistOuterFail st.results)
                status := St.completed
                completed_at := some env.now } = computeStyleUrls o :=
            computeStyleUrls_congr g2 g3
          rw [hstyle]
          obtain ⟨hrl, hsk⟩ := resume_some o (computeStyleUrls o) rd hres
          have hSne : computeStyleUrls o ≠ [] := by
            cases hcs : computeStyleUrls o with
            | nil => rw [hcs] at hS; simp at hS
            | cons a l => simp
          have hlt := hsk hSne
          simp only [progressList]
          rw [persistResultImages_length, g4]
          dsimp only [initState]
          rw [hrl]
          simp only [List.length_drop]
          omega
        · simp [commits] at hmem
      | inr p =>
        rcases p with ⟨e, st⟩
        dsimp only at hmem
        have hdecomp : ∀ {kf : CommitKind} {mem : OrderRec},
            (k, snap) ∈ commits (.commit .setProcessing { o with status := St.processing } ::
              evs ++ [Event.commit kf mem]) →
            mem.status = St.failed ∨ mem.status = St.processing →
            (computeStyleUrls snap).length ≤ (progressList snap).length := by
          intro kf mem hm hmst
          obtain h | hm := mem_commits_cons_commit hm
          · obtain ⟨-, hsnap⟩ := h
            subst hsnap
            exact absurd hst hproc
          obtain hm | hm := mem_commits_append hm
          · have h := hloopmem _ _ hm
            rw [h] at hst
            exact absurd hst hproc
          obtain h | hm := mem_commits_cons_commit hm
          · obtain ⟨-, hsnap⟩ := h
            subst hsnap
            rcases hmst with hmst | hmst <;> rw [hmst] at hst
            · exact absurd hst hfail
            · exact absurd hst hproc
          · simp [commits] at hm
        cases hek : e.kind with
        | rateLimit =>
          rw [hek] at hmem
          dsimp only at hmem
          exact hdecomp hmem (Or.inl rfl)
        | timeout =>
          rw [hek] at hmem
          dsimp only at hmem
          by_cases htr : isTransientSourceError e.msg = true
          · rw [if_pos htr] at hmem
            exact hdecomp hmem (Or.inr rfl)
          · rw [if_neg htr] at hmem
            obtain h | hmem := mem_commits_cons_commit hmem
            · obtain ⟨-, hsnap⟩ := h
              subst hsnap
              exact absurd hst hproc
            obtain hmem | hmem := mem_commits_append hmem
            · have h := hloopmem _ _ hmem
              rw [h] at hst
              exact absurd hst hproc
            obtain h | hmem := mem_commits_cons_commit hmem
            · obtain ⟨-, hsnap⟩ := h
              subst hsnap
              exact absurd hst hfail
            · simp [commits] at hmem
        | error =>
          rw [hek] at hmem
          dsimp only at hmem
          by_cases htr : isTransientSourceError e.msg = true
          · rw [if_pos htr] at hmem
            exact hdecomp hmem (Or.inr rfl)
          · rw [if_neg htr] at hmem
            obtain h | hmem := mem_commits_cons_commit hmem
            · obtain ⟨-, hsnap⟩ := h
              subst hsnap
              exact absurd hst hproc
            obtain hmem | hmem := mem_commits_append hmem
            · have h := hloopmem _ _ hmem
              rw [h] at hst
              exact absurd hst hproc
            obtain h | hmem := mem_commits_cons_commit hmem
            · obtain ⟨-, hsnap⟩ := h
              subst hsnap
              exact absurd hst hfail
            · simp [commits] at hmem

/-- C2: at no commit point does the Executor write `status = completed`
while the committed progress list is shorter than the target style-ref
list — for any lock outcome, oracle behaviour and starting order state. -/
theorem c2_no_premature_completion (lock : LockOutcome) (env : Env) (orderId : String)
    (o : OrderRec) (k : CommitKind) (snap : OrderRec)
    (hmem : (k, snap) ∈ commits (runStyleTransferSync lock env orderId o).trace)
    (hst : snap.status = St.completed) :
    (computeStyleUrls snap).length ≤ (progressList snap).length := by
  cases lock with
  | held => simp [runStyleTransferSync, tryAcquireOrderLockSync, commits] at hmem
  | acquired =>
    unfold runStyleTransferSync at hmem
    dsimp only [tryAcquireOrderLockSync] at hmem
    rcases hb : runBody env orderId o with ⟨db, bodyEvs⟩
    rw [hb] at hmem
    dsimp only at hmem
    rw [show ([] : List Event) ++ bodyEvs ++ [Event.releaseLock]
      = bodyEvs ++ [Event.releaseLock] from by simp] at hmem
    rw [commits_append] at hmem
    simp only [commits, List.filterMap_cons, List.filterMap_nil, List.append_nil] at hmem
    exact runBody_completed_commits env orderId o k snap (by rw [hb]; exact hmem) hst
  | infraError =>
    unfold runStyleTransferSync at hmem
    dsimp only [tryAcquireOrderLockSync] at hmem
    rcases hb : runBody env orderId o with ⟨db, bodyEvs⟩
    rw [hb] at hmem
    dsimp only at hmem
    rw [commits_append] at hmem
    simp only [commits, List.filterMap_cons, List.filterMap_nil, List.append_nil,
      List.nil_append] at hmem
    exact runBody_completed_commits env orderId o k snap (by rw [hb]; exact hmem) hst

/-- Concrete already-complete order used by the C2 witness. -/
def c2Order : OrderRec :=
  { baseOrder with status := "processing", result_urls := .list ["a", "b"] }

/-- Closed instance of C2 at the early-finalize commit of a concrete
already-complete run. -/
theorem c2_witness :
    (CommitKind.earlyFinalize, (runStyleTransferSync .acquired okEnv "w2" c2Order).db) ∈
      commits (runStyleTransferSync .acquired okEnv "w2" c2Order).trace ∧
    (runStyleTransferSync .acquired okEnv "w2" c2Order).db.status = St.completed ∧
    (computeStyleUrls (runStyleTransferSync .acquired okEnv "w2" c2Order).db).length ≤
      (progressList (runStyleTransferSync .acquired okEnv "w2" c2Order).db).length := by
  refine ⟨by decide, by decide, ?_⟩
  exact c2_no_premature_completion .acquired okEnv "w2" c2Order .earlyFinalize
    (runStyleTransferSync .acquired okEnv "w2" c2Order).db (by decide) (by decide)

/-- Checkpoint commits of a run body write the three parallel lists
together, in one snapshot, with equal lengths — given that the resumed
lists were aligned (true of every state this code itself persists). -/
theorem runBody_checkpoint_commits (env : Env) (oid : String) (o : OrderRec)
    (hal : resumeAlignedB o = true) (snap : OrderRec)
    (hmem : (CommitKind.checkpoint, snap) ∈ commits (runBody env oid o).2) :
    ∃ (rs : List ResVal) (js : List String) (ds : List PredRecord),
      snap.result_urls = .list (rs.map serializeItem) ∧
      snap.style_transfer_job_id = some (String.intercalate "," js) ∧
      snap.replicate_prediction_details = .list ds ∧
      js.length = rs.length ∧ ds.length = rs.length := by
  unfold runBody at hmem
  dsimp only at hmem
  by_cases hS : (computeStyleUrls o).isEmpty = true
  · rw [if_pos hS] at hmem
    obtain h | hmem := mem_commits_cons_commit hmem
    · exact absurd h.1 (by simp)
    · simp [commits] at hmem
  · rw [if_neg hS] at hmem
    cases hres : resumeFromProgress o (computeStyleUrls o) with
    | none =>
      rw [hres] at hmem
      by_cases hic : o.status = St.completed
      · rw [if_neg (by simp [hic])] at hmem
        simp [commits] at hmem
      · rw [if_pos (by simp [hic])] at hmem
        obtain h | hmem := mem_commits_cons_commit hmem
        · exact absurd h.1 (by simp)
        · simp [commits] at hmem
    | some rd =>
      rw [hres] at hmem
      dsimp only at hmem
      have hal' : rd.jobIds.length = rd.skip ∧ rd.details.length = rd.skip := by
        unfold resumeAlignedB at hal
        rw [hres] at hal
        simpa using hal
      have hrl := (resume_some o (computeStyleUrls o) rd hres).1
      have hj : (initState o rd).jobIds.length = (initState o rd).results.length := by
        dsimp only [initState]
        rw [hal'.1, hrl]
      have hd : (initState o rd).details.length = (initState o rd).results.length := by
        dsimp only [initState]
        rw [hal'.2, hrl]
      rcases hloop : unitsLoop env (effectiveSourceUrl env oid o) true
          ((computeStyleUrls o).drop rd.skip) (initState o rd) with ⟨res, evs⟩
      rw [show unitsLoop env (effectiveSourceUrl env oid o) true
          ((computeStyleUrls o).drop rd.skip)
          ⟨{ o with status := St.processing }, rd.results, rd.jobIds, rd.details, 0, 0, 0⟩
        = (res, evs) from hloop] at hmem
      have hloopmem : (CommitKind.checkpoint, snap) ∈ commits evs →
          ∃ (rs : List ResVal) (js : List String) (ds : List PredRecord),
            snap.result_urls = .list (rs.map serializeItem) ∧
            snap.style_transfer_job_id = some (String.intercalate "," js) ∧
            snap.replicate_prediction_details = .list ds ∧
            js.length = rs.length ∧ ds.length = rs.length := by
        intro hm
        exact unitsLoop_parallel env (effectiveSourceUrl env oid o)
          ((computeStyleUrls o).drop rd.skip) true (initState o rd) hj hd
          .checkpoint snap (by rw [hloop]; exact hm)
      cases res with
      | inl st =>
        dsimp only at hmem
        obtain h | hmem := mem_commits_cons_commit hmem
        · exact absurd h.1 (by simp)
        obtain hmem | hmem := mem_commits_append hmem
        · exact hloopmem hmem
        obtain h | hmem := mem_commits_cons_commit hmem
        · exact absurd h.1 (by simp)
        obtain h | hmem := mem_commits_cons_commit hmem
        · exact absurd h.1 (by simp)
        · simp [commits] at hmem
      | inr p =>
        rcases p with ⟨e, st⟩
        dsimp only at hmem
        have hdecomp : ∀ {kf : CommitKind} {mem : OrderRec},
            (CommitKind.checkpoint, snap) ∈
              commits (.commit .setProcessing { o with status := St.processing } ::
                evs ++ [Event.commit kf mem]) →
            kf ≠ .checkpoint →
            ∃ (rs : List ResVal) (js : List String) (ds : List PredRecord),
              snap.result_urls = .list (rs.map serializeItem) ∧
              snap.style_transfer_job_id = some (String.intercalate "," js) ∧
              snap.replicate_prediction_details = .list ds ∧
              js.length = rs.length ∧ ds.length = rs.length := by
          intro kf mem hm hkf
          obtain h | hm := mem_commits_cons_commit hm
          · exact absurd h.1 (by simp)
          obtain hm | hm := mem_commits_append hm
          · exact hloopmem hm
          obtain h | hm := mem_commits_cons_commit hm
          · exact absurd h.1.symm hkf
          · simp [commits] at hm
        cases hek : e.kind with
        | rateLimit =>
          rw [hek] at hmem
          dsimp only at hmem
          exact hdecomp hmem (by simp)
        | timeout =>
          rw [hek] at hmem
          dsimp only at hmem
          by_cases htr : isTransientSourceError e.msg = true
          · rw [if_pos htr] at hmem
            exact hdecomp hmem (by simp)
          · rw [if_neg htr] at hmem
            obtain h | hmem := mem_commits_cons_commit hmem
            · exact absurd h.1 (by simp)
            obtain hmem | hmem := mem_commits_append hmem
            · exact hloopmem hmem
            obtain h | hmem := mem_commits_cons_commit hmem
            · exact absurd h.1 (by simp)
            · simp [commits] at hmem
        | error =>
          rw [hek] at hmem
          dsimp only at hmem
          by_cases htr : isTransientSourceError e.msg = true
          · rw [if_pos htr] at hmem
            exact hdecomp hmem (by simp)
          · rw [if_neg htr] at hmem
            obtain h | hmem := mem_commits_cons_commit hmem
            · exact absurd h.1 (by simp)
            obtain hmem | hmem := mem_commits_append hmem
            · exact hloopmem hmem
            obtain h | hmem := mem_commits_cons_commit hmem
            · exact absurd h.1 (by simp)
            · simp [commits] at hmem

/-- C4: every checkpoint commit persists the in-memory `progress`,
`job_ids` and `diagnostic_records` lists together in the one committed
snapshot — serialized progress, comma-joined job ids and the details list
all come from three parallel lists of equal length.  The alignment
hypothesis on the loaded state is exactly what every checkpoint of this
code re-establishes. -/
theorem c4_checkpoint_parallel_lists (lock : LockOutcome) (env : Env)
    (orderId : String) (o : OrderRec)
    (hal : resumeAlignedB o = true) (snap : OrderRec)
    (hmem : (CommitKind.checkpoint, snap) ∈
      commits (runStyleTransferSync lock env orderId o).trace) :
    ∃ (rs : List ResVal) (js : List String) (ds : List PredRecord),
      snap.result_urls = .list (rs.map serializeItem) ∧
      snap.style_transfer_job_id = some (String.intercalate "," js) ∧
      snap.replicate_prediction_details = .list ds ∧
      js.length = rs.length ∧ ds.length = rs.length := by
  cases lock with
  | held => simp [runStyleTransferSync, tryAcquireOrderLockSync, commits] at hmem
  | acquired =>
    unfold runStyleTransferSync at hmem
    dsimp only [tryAcquireOrderLockSync] at hmem
    rcases hb : runBody env orderId o with ⟨db, bodyEvs⟩
    rw [hb] at hmem
    dsimp only at hmem
    rw [show ([] : List Event) ++ bodyEvs ++ [Event.releaseLock]
      = bodyEvs ++ [Event.releaseLock] from by simp] at hmem
    rw [commits_append] at hmem
    simp only [commits, List.filterMap_cons, List.filterMap_nil, List.append_nil] at hmem
    exact runBody_checkpoint_commits env orderId o hal snap (by rw [hb]; exact hmem)
  | infraError =>
    unfold runStyleTransferSync at hmem
    dsimp only [tryAcquireOrderLockSync] at hmem
    rcases hb : runBody env orderId o with ⟨db, bodyEvs⟩
    rw [hb] at hmem
    dsimp only at hmem
    rw [commits_append] at hmem
    simp only [commits, List.filterMap_cons, List.filterMap_nil, List.append_nil,
      List.nil_append] at hmem
    exact runBody_checkpoint_commits env orderId o hal snap (by rw [hb]; exact hmem)

/-- Membership of an indexed checkpoint entry of a commit list. -/
theorem mem_commits_of_get {l : List Event} {i : Nat} (h : i < (commits l).length)
    (hk : ((commits l).get ⟨i, h⟩).1 = CommitKind.checkpoint) :
    (CommitKind.checkpoint, ((commits l).get ⟨i, h⟩).2) ∈ commits l := by
  have hm := List.get_mem (commits l) i h
  rw [← hk]
  simp

/-- Concrete single-style order used by the C4 witness. -/
def c4Order : OrderRec := { baseOrder with style_image_urls := .list ["s1"] }

/-- Closed instance of C4: the checkpoint commit of a concrete one-unit run
carries three parallel lists of equal length. -/
theorem c4_witness :
    resumeAlignedB c4Order = true ∧
    ∃ (rs : List ResVal) (js : List String) (ds : List PredRecord),
      ((commits (runStyleTransferSync .acquired okEnv "w4" c4Order).trace).get
          ⟨1, by decide⟩).2.result_urls = .list (rs.map serializeItem) ∧
      ((commits (runStyleTransferSync .acquired okEnv "w4" c4Order).trace).get
          ⟨1, by decide⟩).2.style_transfer_job_id = some (String.intercalate "," js) ∧
      ((commits (runStyleTransferSync .acquired okEnv "w4" c4Order).trace).get
          ⟨1, by decide⟩).2.replicate_prediction_details = .list ds ∧
      js.length = rs.length ∧ ds.length = rs.length := by
  refine ⟨by decide, ?_⟩
  exact c4_checkpoint_parallel_lists .acquired okEnv "w4" c4Order (by decide) _
    (mem_commits_of_get (by decide) (by decide))

/-- Resumed progress entries serialize back to themselves. -/
theorem serialize_map_url (xs : List String) :
    (xs.map ResVal.url).map serializeItem = xs := by
  induction xs with
  | nil => rfl
  | cons a l ih => simp only [List.map_cons, serializeItem, ih]

/-- Concrete order with one persisted result out of two targets and a
corrupted diagnostics column (C1 counterexample input). -/
def c1CexOrder : OrderRec :=
  { baseOrder with
    result_urls := .list ["https://r1"]
    style_transfer_job_id := some "j1"
    replicate_prediction_details := .invalid "truncated" }

/-- C1 counterexample: with progress of length k = 1 of N = 2 persisted but
an unparseable diagnostics column, a successful run regenerates BOTH units
(2 provider-visible units, not N - k = 1); and even on a clean resume the
final persisted progress rewrites entry 0 to a durable URL, so "the first k
entries are unchanged" fails for the final state. -/
theorem c1_counterexample :
    (callStyleUrls (runStyleTransferSync .acquired okEnv "cx1" c1CexOrder).trace).length = 2 ∧
    (progressList (runStyleTransferSync .acquired okEnv "cx1" c1CexOrder).db).take 1 ≠
      ["https://r1"] := by
  refine ⟨by decide, ?_⟩
  have h : progressList (runStyleTransferSync .acquired okEnv "cx1" c1CexOrder).db =
      ["https://artify.example/api/orders/cx1/result/1",
       "https://artify.example/api/orders/cx1/result/2"] := by rfl
  rw [h]
  decide

/-- C1 (amended): for an order with parsed progress of length `k`,
`0 < k < N` targets, a parseable diagnostics column and an all-successful
primary provider, the run generates exactly `N - k` new units, strictly in
target-ref order (`S.drop k`), never re-generating units `0..k-1`; every
checkpoint commit keeps the first `k` progress entries unchanged; the run
completes with progress of full length `N`, equal to the positional durable
rewrite of the old `k` entries followed by the `N - k` new results. -/
theorem c1_resume_exact (env : Env) (orderId : String) (o : OrderRec) (xs : List String)
    (hxs : o.result_urls = .list xs)
    (hd : detailsParseOk o.replicate_prediction_details = true)
    (hk : 0 < xs.length)
    (hkN : xs.length < (computeStyleUrls o).length)
    (hOk : ∀ n, (env.primaryCalls n).isOk = true) :
    callStyleUrls (runStyleTransferSync .acquired env orderId o).trace =
      (computeStyleUrls o).drop xs.length ∧
    (runStyleTransferSync .acquired env orderId o).db.status = St.completed ∧
    (progressList (runStyleTransferSync .acquired env orderId o).db).length =
      (computeStyleUrls o).length ∧
    (∀ snap, (CommitKind.checkpoint, snap) ∈
        commits (runStyleTransferSync .acquired env orderId o).trace →
      (progressList snap).take xs.length = xs) ∧
    progressList (runStyleTransferSync .acquired env orderId o).db =
      persistResultImages (effBase env) orderId env.fetchOutcomes env.persistOuterFail
        (xs.map .url ++ (List.range ((computeStyleUrls o).length - xs.length)).map
          (fun i => okRes (env.primaryCalls i))) := by
  have hS : computeStyleUrls o ≠ [] := by
    cases hcs : computeStyleUrls o with
    | nil => rw [hcs] at hkN; simp at hkN
    | cons a l => simp
  have hres : resumeFromProgress o (computeStyleUrls o) =
      some ⟨xs.map .url,
        (cleanIds (splitJobIds o.style_transfer_job_id)).take xs.length,
        (match o.replicate_prediction_details with
          | .list ps => ps
          | _ => ([] : List PredRecord)).take xs.length,
        xs.length⟩ := by
    unfold resumeFromProgress
    rw [hxs]
    cases hdd : o.replicate_prediction_details with
    | invalid raw => rw [hdd] at hd; simp [detailsParseOk] at hd
    | null => simp [Nat.not_le.mpr hkN]
    | list ps => simp [Nat.not_le.mpr hkN]
    | notList raw => simp [Nat.not_le.mpr hkN]
  set rd : ResumeData :=
    ⟨xs.map .url,
      (cleanIds (splitJobIds o.style_transfer_job_id)).take xs.length,
      (match o.replicate_prediction_details with
        | .list ps => ps
        | _ => ([] : List PredRecord)).take xs.length,
      xs.length⟩ with hrd
  obtain ⟨st, evs, hloop, hcall, hsres, hspc⟩ :=
    unitsLoop_allOk env (effectiveSourceUrl env orderId o) hOk
      ((computeStyleUrls o).drop rd.skip) true (initState o rd)
  have hrun := run_success env orderId o rd hS hres hloop
  have hres_init : (initState o rd).results = xs.map .url := rfl
  have hpc_init : (initState o rd).pc = 0 := rfl
  have hstres : st.results = xs.map .url ++
      (List.range ((computeStyleUrls o).length - xs.length)).map
        (fun i => okRes (env.primaryCalls i)) := by
    rw [hsres, hres_init]
    have h2 : (List.drop rd.skip (computeStyleUrls o)).length =
        (computeStyleUrls o).length - xs.length := by
      rw [List.length_drop]
    rw [h2]
    congr 1
    apply List.map_congr_left
    intro i _
    show okRes (env.primaryCalls ((initState o rd).pc + i)) = okRes (env.primaryCalls i)
    rw [show (initState o rd).pc = 0 from rfl, Nat.zero_add]
  have hserial : (xs.map ResVal.url).map serializeItem = xs := serialize_map_url xs
  refine ⟨?_, ?_, ?_, ?_, ?_⟩
  · rw [hrun]
    dsimp only
    simp only [callStyleUrls, List.filterMap_cons, List.filterMap_append,
      List.filterMap_nil]
    simpa using hcall
  · rw [hrun]
  · rw [hrun]
    dsimp only [progressList]
    rw [persistResultImages_length, hstres]
    simp only [List.length_append, List.length_map, List.length_range]
    omega
  · intro snap hmem
    rw [hrun] at hmem
    dsimp only at hmem
    obtain h | hmem := mem_commits_cons_commit hmem
    · exact absurd h.1 (by simp)
    obtain hmem | hmem := mem_commits_append hmem
    swap
    · simp [commits] at hmem
    obtain hmem | hmem := mem_commits_append hmem
    · obtain ⟨-, -, -, -, tail, htail⟩ :=
        unitsLoop_commits env (effectiveSourceUrl env orderId o)
          ((computeStyleUrls o).drop rd.skip) true (initState o rd)
          .checkpoint snap (by rw [hloop]; exact hmem)
      rw [hres_init, hserial] at htail
      simp only [progressList, htail]
      exact List.take_left xs tail
    obtain h | hmem := mem_commits_cons_commit hmem
    · exact absurd h.1 (by simp)
    obtain h | hmem := mem_commits_cons_commit hmem
    · exact absurd h.1 (by simp)
    · simp [commits] at hmem
  · rw [hrun]
    dsimp only [progressList]
    rw [hstres]

/-- Closed instance of the amended C1 at one persisted unit of two. -/
theorem c1_witness :
    callStyleUrls (runStyleTransferSync .acquired okEnv "w1"
        { baseOrder with
          result_urls := .list ["https://r1"]
          style_transfer_job_id := some "j1"
          replicate_prediction_details := .list [{ id := some "j1" }] }).trace =
      (computeStyleUrls baseOrder).drop 1 ∧
    (runStyleTransferSync .acquired okEnv "w1"
        { baseOrder with
          result_urls := .list ["https://r1"]
          style_transfer_job_id := some "j1"
          replicate_prediction_details := .list [{ id := some "j1" }] }).db.status =
      St.completed := by
  have h := c1_resume_exact okEnv "w1"
    { baseOrder with
      result_urls := .list ["https://r1"]
      style_transfer_job_id := some "j1"
      replicate_prediction_details := .list [{ id := some "j1" }] }
    ["https://r1"] rfl (by decide) (by decide) (by decide) (fun n => rfl)
  exact ⟨h.1, h.2.1⟩

/-- Under an all-429 provider, the stylize attempt loop performs exactly
`remaining` POSTs, waits `baseWait * 2 ^ (attempt + i)` before retry `i`,
and ends with the rate-limit exception. -/
theorem stylizeLoop_rateLimited (cfg : ClientCfg) (responses : Nat → OAIAttempt)
    (hresp : ∀ n, ∃ t b, responses n = .resp 429 t b) :
    ∀ (remaining attempt : Nat), 1 ≤ remaining →
      (stylizeLoop cfg responses remaining attempt).1 =
        .error ⟨.rateLimit, "Rate limit exceeded after retries", none⟩ ∧
      waitsOf (stylizeLoop cfg responses remaining attempt).2 =
        (List.range (remaining - 1)).map (fun i => cfg.baseWait * 2 ^ (attempt + i)) ∧
      httpPosts (stylizeLoop cfg responses remaining attempt).2 = remaining := by
  intro remaining
  induction remaining with
  | zero => intro attempt h; omega
  | succ m ih =>
    intro attempt _
    obtain ⟨t, b, hr⟩ := hresp attempt
    match m with
    | 0 =>
      rw [stylizeLoop, hr]
      simp [waitsOf, httpPosts]
    | k + 1 =>
      obtain ⟨ih1, ih2, ih3⟩ := ih (attempt + 1) (by omega)
      rcases hS : stylizeLoop cfg responses (k + 1) (attempt + 1) with ⟨res, evs⟩
      rw [hS] at ih1 ih2 ih3
      dsimp only at ih1 ih2 ih3
      rw [stylizeLoop, hr]
      simp only [List.contains_cons, beq_self_eq_true, Bool.true_or, if_pos,
        Nat.le_add_left, hS]
      refine ⟨ih1, ?_, ?_⟩
      · simp only [waitsOf, List.filterMap_cons] at ih2 ⊢
        rw [ih2]
        have hsk : (k + 1 + 1) - 1 = (k + 1 - 1) + 1 := by omega
        rw [hsk, List.range_succ_eq_map, List.map_cons, List.map_map]
        rw [Nat.add_zero]
        congr 1
        apply List.map_congr_left
        intro i _
        simp only [Function.comp]
        have hx : attempt + 1 + i = attempt + Nat.succ i := by omega
        rw [hx]
      · simp only [httpPosts, List.filter_cons] at ih3 ⊢
        simp at ih3 ⊢
        omega

/-- Full-run characterization of the rate-limit failure path: processing
commit, the failed unit's events, the rate-limit failure commit, lock
release; no checkpoint was reached, so the persisted lists in `st.mem` are
whatever the resume recovered. -/
theorem run_rateLimit_fail (env : Env) (oid : String) (o : OrderRec) (rd : ResumeData)
    (hS : computeStyleUrls o ≠ [])
    (hres : resumeFromProgress o (computeStyleUrls o) = some rd)
    {e : Exc} {st : LoopState} {evs : List Event}
    (hloop : unitsLoop env (effectiveSourceUrl env oid o) true
        ((computeStyleUrls o).drop rd.skip) (initState o rd) = (.inr (e, st), evs))
    (hek : e.kind = .rateLimit) :
    runStyleTransferSync .acquired env oid o =
      ⟨{ st.mem with
          status := St.failed
          style_transfer_error := some ("Rate limit: " ++ e.msg)
          failed_at := some env.now },
        .commit .setProcessing { o with status := St.processing } :: evs
          ++ [.commit .rateLimitFailed
                { st.mem with
                  status := St.failed
                  style_transfer_error := some ("Rate limit: " ++ e.msg)
                  failed_at := some env.now }] ++ [.releaseLock]⟩ := by
  have hS' : ¬((computeStyleUrls o).isEmpty = true) := by
    cases hcs : computeStyleUrls o with
    | nil => exact absurd hcs hS
    | cons a l => simp
  unfold runStyleTransferSync
  dsimp only [tryAcquireOrderLockSync]
  unfold runBody
  dsimp only
  rw [if_neg hS', hres]
  dsimp only
  rw [show unitsLoop env (effectiveSourceUrl env oid o) true
      ((computeStyleUrls o).drop rd.skip)
      ⟨{ o with status := St.processing }, rd.results, rd.jobIds, rd.details, 0, 0, 0⟩
    = (.inr (e, st), evs) from hloop]
  dsimp only
  rw [hek]
  rfl

/-- C6: (client) when the provider returns 429 on every attempt, each retry
of `OpenAIStylizeClient.stylize` waits exactly `base_wait * 2 ^ attempt`
seconds and after `R = rate_limit_retries` attempts the call fails with the
rate-limit exception; (Executor) when every provider call of the run —
primary and fallback alike — raises the rate-limit exception, the order is
marked `failed` with a "Rate limit:" marker in `last_error`, `failed_at`
stamped, and the persisted progress column unchanged from before the run. -/
theorem c6_rate_limit_exhaustion :
    (∀ (cfg : ClientCfg) (imageUrl : String) (responses : Nat → OAIAttempt),
      strStartsWith imageUrl "https://" = true →
      1 ≤ cfg.retries →
      (∀ n, ∃ t b, responses n = .resp 429 t b) →
      (stylize cfg imageUrl responses).1 =
        .error ⟨.rateLimit, "Rate limit exceeded after retries", none⟩ ∧
      waitsOf (stylize cfg imageUrl responses).2 =
        (List.range (cfg.retries - 1)).map (fun attempt => cfg.baseWait * 2 ^ attempt) ∧
      httpPosts (stylize cfg imageUrl responses).2 = cfg.retries) ∧
    (∀ (env : Env) (orderId : String) (o : OrderRec) (rd : ResumeData),
      computeStyleUrls o ≠ [] →
      resumeFromProgress o (computeStyleUrls o) = some rd →
      (∀ n, ∃ e, env.primaryCalls n = .exc e ∧ e.kind = .rateLimit) →
      (∀ n, ∃ e, env.fallbackCalls n = .exc e ∧ e.kind = .rateLimit) →
      (runStyleTransferSync .acquired env orderId o).db.status = St.failed ∧
      (∃ m, (runStyleTransferSync .acquired env orderId o).db.style_transfer_error =
        some ("Rate limit: " ++ m)) ∧
      (runStyleTransferSync .acquired env orderId o).db.failed_at = some env.now ∧
      (runStyleTransferSync .acquired env orderId o).db.result_urls = o.result_urls) := by
  constructor
  · intro cfg imageUrl responses himg hret hresp
    unfold stylize
    rw [himg]
    simp only [Bool.not_true, Bool.false_eq_true, if_false]
    have h := stylizeLoop_rateLimited cfg responses hresp cfg.retries 0 hret
    refine ⟨h.1, ?_, h.2.2⟩
    rw [h.2.1]
    apply List.map_congr_left
    intro i _
    rw [Nat.zero_add]
  · intro env orderId o rd hS hres hp hf
    have hlt := (resume_some o (computeStyleUrls o) rd hres).2 hS
    obtain ⟨u, rest, hdrop⟩ : ∃ u rest,
        (computeStyleUrls o).drop rd.skip = u :: rest := by
      cases hD : (computeStyleUrls o).drop rd.skip with
      | nil =>
        have := List.drop_eq_nil_iff_le.mp hD
        omega
      | cons u rest => exact ⟨u, rest, rfl⟩
    obtain ⟨e, aevs, pcA, fcA, hA, hek⟩ :=
      attemptLoop_rateLimited env (effectiveSourceUrl env orderId o) u
        (initState o rd).pc (initState o rd).fc hp hf
    have hloop : unitsLoop env (effectiveSourceUrl env orderId o) true
        ((computeStyleUrls o).drop rd.skip) (initState o rd) =
        (.inr (e, initState o rd),
          (if true then ([] : List Event) else [.sleep 30]) ++ aevs) := by
      rw [hdrop]
      exact unitsLoop_headFail env (effectiveSourceUrl env orderId o) u rest true
        (initState o rd) hA
    have hrun := run_rateLimit_fail env orderId o rd hS hres hloop hek
    rw [hrun]
    exact ⟨rfl, ⟨e.msg, rfl⟩, rfl, rfl⟩

/-- Closed instance of C6: four all-429 attempts wait 15, 30 and 60 seconds
then fail; a run whose calls all rate-limit leaves progress untouched and
the order failed with a rate-limit marker. -/
theorem c6_witness :
    waitsOf (stylize ⟨4, 15⟩ "https://img" (fun _ => .resp 429 "t" (.emptyData "m"))).2 =
      [15, 30, 60] ∧
    (stylize ⟨4, 15⟩ "https://img" (fun _ => .resp 429 "t" (.emptyData "m"))).1 =
      .error ⟨.rateLimit, "Rate limit exceeded after retries", none⟩ ∧
    (runStyleTransferSync .acquired
        { okEnv with
          primaryCalls := fun _ => .exc ⟨.rateLimit, "boom", none⟩
          fallbackCalls := fun _ => .exc ⟨.rateLimit, "fbboom", none⟩ }
        "w6" baseOrder).db.status = St.failed ∧
    (runStyleTransferSync .acquired
        { okEnv with
          primaryCalls := fun _ => .exc ⟨.rateLimit, "boom", none⟩
          fallbackCalls := fun _ => .exc ⟨.rateLimit, "fbboom", none⟩ }
        "w6" baseOrder).db.result_urls = baseOrder.result_urls := by
  have hc := c6_rate_limit_exhaustion.1 ⟨4, 15⟩ "https://img"
    (fun _ => .resp 429 "t" (.emptyData "m")) (by decide) (by decide)
    (fun n => ⟨"t", .emptyData "m", rfl⟩)
  have he := c6_rate_limit_exhaustion.2
    { okEnv with
      primaryCalls := fun _ => .exc ⟨.rateLimit, "boom", none⟩
      fallbackCalls := fun _ => .exc ⟨.rateLimit, "fbboom", none⟩ }
    "w6" baseOrder ⟨[], [], [], 0⟩ (by decide) (by decide)
    (fun n => ⟨⟨.rateLimit, "boom", none⟩, rfl, rfl⟩)
    (fun n => ⟨⟨.rateLimit, "fbboom", none⟩, rfl, rfl⟩)
  refine ⟨?_, hc.1, he.1, he.2.2.2⟩
  rw [hc.2.1]
  decide

/-- Environment whose primary provider always returns a permanent error
and which has no fallback (C7 counterexample input). -/
def c7CexEnv : Env :=
  { okEnv with
    primaryCalls := fun _ => .exc ⟨.error, "OpenAI image edit API error 400: bad", none⟩
    hasReplicateToken := false }

/-- C7 counterexample: on a permanent provider error the Executor's
per-unit loop does NOT fail immediately — it makes three provider calls for
the single unit, sleeping 10 s between attempts, before giving up. -/
theorem c7_counterexample :
    (callStyleUrls (runStyleTransferSync .acquired c7CexEnv "cx7"
      { baseOrder with style_image_urls := .list ["s1"] }).trace).length = 3 ∧
    Event.sleep 10 ∈ (runStyleTransferSync .acquired c7CexEnv "cx7"
      { baseOrder with style_image_urls := .list ["s1"] }).trace := by
  decide

/-- C7 (amended): a permanent provider response — a non-transient status
≥ 400, or a well-formed 2xx with no image data — makes
`OpenAIStylizeClient.stylize` fail on the FIRST attempt, with no backoff
wait and no further POST; the Executor's per-unit retry loop, however,
cannot distinguish permanent from transient `StyleTransferError`s and
retries the unit up to its 3 attempts with a fixed 10-second wait between
them before re-raising. -/
theorem c7_permanent_error (cfg : ClientCfg) (imageUrl : String)
    (responses : Nat → OAIAttempt)
    (himg : strStartsWith imageUrl "https://" = true)
    (hret : 1 ≤ cfg.retries) :
    (∀ status t b, responses 0 = .resp status t b →
      (([429, 500, 502, 503, 504] : List Nat).contains status) = false →
      400 ≤ status →
      stylize cfg imageUrl responses =
        (.error ⟨.error, "OpenAI image edit API error " ++ toString status ++ ": "
          ++ strTake 500 t, none⟩, [.httpPost])) ∧
    (∀ status t m, responses 0 = .resp status t (.emptyData m) →
      (([429, 500, 502, 503, 504] : List Nat).contains status) = false →
      status < 400 →
      stylize cfg imageUrl responses =
        (.error ⟨.error, "OpenAI image edit failed: " ++ m, none⟩, [.httpPost])) ∧
    (∀ (env : Env) (src u : String) (pc fc : Nat) (e0 e1 e2 : Exc),
      env.primaryCalls pc = .exc e0 →
      env.primaryCalls (pc + 1) = .exc e1 →
      env.primaryCalls (pc + 2) = .exc e2 →
      fallbackAvailable env = false →
      attemptLoop env src u 3 pc fc =
        (.error e2,
          [.providerCall .primary src u, .sleep 10, .providerCall .primary src u,
           .sleep 10, .providerCall .primary src u],
          pc + 3, fc)) := by
  obtain ⟨k, hk⟩ : ∃ k, cfg.retries = k + 1 := ⟨cfg.retries - 1, by omega⟩
  refine ⟨?_, ?_, ?_⟩
  · intro status t b h0 hc h4
    unfold stylize
    rw [himg]
    simp only [Bool.not_true, Bool.false_eq_true, if_false]
    rw [hk, stylizeLoop, h0]
    dsimp only
    rw [hc]
    simp only [Bool.false_eq_true, if_false, if_pos h4]
  · intro status t m h0 hc h4
    unfold stylize
    rw [himg]
    simp only [Bool.not_true, Bool.false_eq_true, if_false]
    rw [hk, stylizeLoop, h0]
    dsimp only
    rw [hc]
    simp only [Bool.false_eq_true, if_false, if_neg (by omega : ¬(400 ≤ status))]
  · intro env src u pc fc e0 e1 e2 h0 h1 h2 hnf
    exact attemptLoop_exhaust_noFallback env src u pc fc h0 h1 h2 hnf

/-- Closed instance of the amended C7: a 400 response fails in one attempt
with no wait; three permanent failures at the Executor level produce three
calls and two 10-second sleeps. -/
theorem c7_witness :
    stylize ⟨4, 15⟩ "https://img" (fun _ => .resp 400 "bad" (.emptyData "m")) =
      (.error ⟨.error, "OpenAI image edit API error 400: " ++ strTake 500 "bad", none⟩,
        [.httpPost]) ∧
    attemptLoop c7CexEnv "https://up/img.jpg" "s1" 3 0 0 =
      (.error ⟨.error, "OpenAI image edit API error 400: bad", none⟩,
        [.providerCall .primary "https://up/img.jpg" "s1", .sleep 10,
         .providerCall .primary "https://up/img.jpg" "s1", .sleep 10,
         .providerCall .primary "https://up/img.jpg" "s1"],
        3, 0) := by
  have h := c7_permanent_error ⟨4, 15⟩ "https://img"
    (fun _ => .resp 400 "bad" (.emptyData "m")) (by decide) (by decide)
  refine ⟨h.1 400 "bad" (.emptyData "m") rfl (by decide) (by decide), ?_⟩
  exact h.2.2 c7CexEnv "https://up/img.jpg" "s1" 0 0 _ _ _ rfl rfl rfl (by decide)

/-- The describe call of a unit produced by the fallback goes to the
fallback provider, so the stored diagnostic record derives from it. -/
theorem unitsLoop_describe_fallback (env : Env) (src : String) (first : Bool)
    (u : String) (rest : List String) (st : LoopState)
    {r : ResVal} {j : String} {aevs : List Event} {pc' fc' : Nat}
    (hA : attemptLoop env src u 3 st.pc st.fc = (.ok (r, j, .fallback), aevs, pc', fc')) :
    Event.describeCall .fallback j ∈ (unitsLoop env src first (u :: rest) st).2 := by
  rw [unitsLoop, hA]
  dsimp only
  rcases hrec : unitsLoop env src false rest (unitStep env st r j pc' fc') with ⟨res, evs'⟩
  simp

/-- C8: after the primary's three attempts are exhausted and a fallback is
configured, the fallback is called once, for this unit only (every unit's
loop opens with a primary call); a successful fallback yields the unit with
the `fallback` provider tag, and its describe call — the source of the
stored diagnostic record — goes to the fallback; a failed fallback
propagates the fallback's error with the last primary error chained as its
cause; and when every fallback call succeeds, the whole run completes with
progress of full target length. -/
theorem c8_fallback_per_unit :
    (∀ (env : Env) (src u : String) (pc fc : Nat) (e0 e1 e2 : Exc),
      fallbackAvailable env = true →
      env.primaryCalls pc = .exc e0 →
      env.primaryCalls (pc + 1) = .exc e1 →
      env.primaryCalls (pc + 2) = .exc e2 →
      (∀ r j, env.fallbackCalls fc = .ok r j →
        attemptLoop env src u 3 pc fc =
          (.ok (r, j, .fallback),
            [.providerCall .primary src u, .sleep 10, .providerCall .primary src u,
             .sleep 10, .providerCall .primary src u, .providerCall .fallback src u],
            pc + 3, fc + 1)) ∧
      (∀ f, env.fallbackCalls fc = .exc f →
        attemptLoop env src u 3 pc fc =
          (.error { f with cause := some (e2.kind, e2.msg) },
            [.providerCall .primary src u, .sleep 10, .providerCall .primary src u,
             .sleep 10, .providerCall .primary src u, .providerCall .fallback src u],
            pc + 3, fc + 1))) ∧
    (∀ (env : Env) (src u : String) (n pc fc : Nat),
      ∃ rest, (attemptLoop env src u n pc fc).2.1 =
        .providerCall .primary src u :: rest) ∧
    (∀ (env : Env) (src : String) (first : Bool) (u : String) (rest : List String)
      (st : LoopState) (r : ResVal) (j : String) (aevs : List Event) (pc' fc' : Nat),
      attemptLoop env src u 3 st.pc st.fc = (.ok (r, j, .fallback), aevs, pc', fc') →
      Event.describeCall .fallback j ∈ (unitsLoop env src first (u :: rest) st).2) ∧
    (∀ (env : Env) (orderId : String) (o : OrderRec) (rd : ResumeData),
      computeStyleUrls o ≠ [] →
      resumeFromProgress o (computeStyleUrls o) = some rd →
      fallbackAvailable env = true →
      (∀ n, (env.fallbackCalls n).isOk = true) →
      (runStyleTransferSync .acquired env orderId o).db.status = St.completed ∧
      (progressList (runStyleTransferSync .acquired env orderId o).db).length =
        (computeStyleUrls o).length) := by
  refine ⟨?_, ?_, ?_, ?_⟩
  · intro env src u pc fc e0 e1 e2 hfb h0 h1 h2
    exact ⟨fun r j hfc => attemptLoop_fb_ok env src u pc fc h0 h1 h2 hfb hfc,
      fun f hfc => attemptLoop_fb_exc env src u pc fc h0 h1 h2 hfb hfc⟩
  · intro env src u n pc fc
    exact attemptLoop_head env src u n pc fc
  · intro env src first u rest st r j aevs pc' fc' hA
    exact unitsLoop_describe_fallback env src first u rest st hA
  · intro env orderId o rd hS hres hfb hok
    obtain ⟨st, evs, hloop⟩ :=
      unitsLoop_allFallbackOk env (effectiveSourceUrl env orderId o) hfb hok
        ((computeStyleUrls o).drop rd.skip) true (initState o rd)
    have hrun := run_success env orderId o rd hS hres hloop
    obtain ⟨-, -, -, g4, -, -, -, -⟩ :=
      unitsLoop_inl env (effectiveSourceUrl env orderId o)
        ((computeStyleUrls o).drop rd.skip) true (initState o rd) st evs hloop
    obtain ⟨hrl, hsk⟩ := resume_some o (computeStyleUrls o) rd hres
    have hlt := hsk hS
    refine ⟨by rw [hrun], ?_⟩
    rw [hrun]
    dsimp only [progressList]
    rw [persistResultImages_length, g4]
    dsimp only [initState]
    rw [hrl]
    simp only [List.length_drop]
    omega

/-- Closed instance of C8 (spec Scenario D): five targets, primary exhausts
on unit 4, fallback succeeds → the run completes with five results and unit
4's diagnostic derives from the fallback provider. -/
theorem c8_witness :
    (runStyleTransferSync .acquired
      { okEnv with
        primaryCalls := fun n =>
          if n ∈ ([3, 4, 5] : List Nat) then .exc ⟨.timeout, "t", none⟩
          else .ok (.url ("https://new" ++ toString n)) ("jid" ++ toString n) }
      "w8"
      { baseOrder with
        style_image_urls := .list ["a", "b", "c", "d", "e"] }).db.status = St.completed ∧
    (progressList (runStyleTransferSync .acquired
      { okEnv with
        primaryCalls := fun n =>
          if n ∈ ([3, 4, 5] : List Nat) then .exc ⟨.timeout, "t", none⟩
          else .ok (.url ("https://new" ++ toString n)) ("jid" ++ toString n) }
      "w8"
      { baseOrder with
        style_image_urls := .list ["a", "b", "c", "d", "e"] }).db).length = 5 ∧
    Event.describeCall .fallback "fb0" ∈
      (runStyleTransferSync .acquired
        { okEnv with
          primaryCalls := fun n =>
            if n ∈ ([3, 4, 5] : List Nat) then .exc ⟨.timeout, "t", none⟩
            else .ok (.url ("https://new" ++ toString n)) ("jid" ++ toString n) }
        "w8"
        { baseOrder with
          style_image_urls := .list ["a", "b", "c", "d", "e"] }).trace := by
  have h := c8_fallback_per_unit.2.2.2
    { okEnv with
      primaryCalls := fun n =>
        if n ∈ ([3, 4, 5] : List Nat) then .exc ⟨.timeout, "t", none⟩
        else .ok (.url ("https://new" ++ toString n)) ("jid" ++ toString n) }
    "w8"
    { baseOrder with style_image_urls := .list ["a", "b", "c", "d", "e"] }
    ⟨[], [], [], 0⟩ (by decide) (by decide) (by decide) (fun n => rfl)
  exact ⟨h.1, h.2, by decide⟩

end Artify